import Mathlib

/-!
# numc: the n-dimensional array allocator (`ndarray.c`, `ndarray.h`)

A shallow embedding of `get_size`, `calculate_strides`, `create_ndarray` and
`free_ndarray`, over an explicit heap with an allocation log and a plan of
allocator outcomes.

Conventions of the embedding (LP64, two's complement):
* `int` is 32 bits wide: an `int` result is an `Int` reduced by `wrap_int`;
* `size_t` is 64 bits wide: a `size_t` result is a `Nat` reduced modulo `2 ^ 64`;
* a pointer is `Option Nat`, `none` being `NULL`;
* an execution that has no defined result in C (a read of an indeterminate
  cell, an access outside a block, a release of a block that is not live, the
  use of the value of `get_size` when no `return` was reached) ends in
  `Outcome.undef`, carrying the heap at that point.
-/

namespace Numc

/-! ## Machine integers -/

/-- The value stored in a 32-bit `int` when the mathematical result is `x`. -/
def wrap_int (x : Int) : Int := (x + 2 ^ 31) % 2 ^ 32 - 2 ^ 31

/-- The value of a `size_t` when the mathematical result is `x`. -/
def wrap_size (x : Nat) : Nat := x % 2 ^ 64

/-- Conversion of an `int` to `size_t`. -/
def to_size_t (x : Int) : Nat := (x % 2 ^ 64).toNat

/-! ## `ndarray.h` -/

/-- A pointer: `none` is `NULL`, `some a` the address of a block. -/
abbrev ptr := Option Nat

/-- The enumeration `dtype_t`, an integer type in C: a tag is the integer
value of the enumerator. -/
abbrev dtype_t := Int

def DTYPE_FLOAT32 : dtype_t := 0
def DTYPE_FLOAT64 : dtype_t := 1
def DTYPE_INT32 : dtype_t := 2
def DTYPE_INT64 : dtype_t := 3

/-- The struct `ndarray`. A field is `none` until it is assigned (the block
comes from `malloc`, so its fields start indeterminate). -/
structure ndarray where
  data : Option ptr
  shape : Option ptr
  stride : Option ptr
  ndim : Option Int
  size : Option Nat
  dtype : Option dtype_t
  owns_data : Option Bool
deriving DecidableEq

/-- The struct as `malloc` hands it out: every field indeterminate. -/
def ndarray.fresh : ndarray :=
  { data := none, shape := none, stride := none, ndim := none, size := none,
    dtype := none, owns_data := none }

/-! ## The heap -/

/-- The content of one allocated block. -/
inductive Block where
  /-- An array of `int`; a cell is `none` while indeterminate. -/
  | ints (cells : List (Option Int))
  /-- A buffer of bytes. -/
  | bytes (cells : List Nat)
  /-- One `ndarray` struct. -/
  | struct (s : ndarray)
deriving DecidableEq

/-- What the allocator was asked to do. -/
inductive Event where
  /-- An allocation request and the pointer it returned (`none`: it failed). -/
  | alloc (p : ptr)
  /-- A release of the block at address `a`. -/
  | free (a : Nat)
deriving DecidableEq

/-- The heap. The block of address `a` is `blocks[a]`; a released block leaves
`none` behind and its address is not handed out again. `plan` lists the
outcomes of the coming allocation requests (`false`: the request fails); past
its end every request is granted. `log` records every request and release. -/
structure Heap where
  blocks : List (Option Block)
  plan : List Bool
  log : List Event
deriving DecidableEq

/-- The result of running a function of the program on a heap. -/
inductive Outcome (α : Type) where
  /-- The call returned `v`, leaving the heap `h`. -/
  | ret (v : α) (h : Heap)
  /-- The execution left defined behaviour, in heap `h`. -/
  | undef (h : Heap)
deriving DecidableEq

/-- The live block at an address, if any. -/
def Heap.load (h : Heap) (a : Nat) : Option Block := (h.blocks.get? a).join

/-- Replace the content of the block at address `a`. -/
def Heap.store (h : Heap) (a : Nat) (b : Block) : Heap :=
  { h with blocks := h.blocks.set a (some b) }

/-- The addresses of the live blocks of a list of blocks starting at address `k`. -/
def live_from : Nat → List (Option Block) → List Nat
  | _, [] => []
  | k, none :: r => live_from (k + 1) r
  | k, some _ :: r => k :: live_from (k + 1) r

/-- The outstanding allocations: the addresses of all live blocks. -/
def Heap.live (h : Heap) : List Nat := live_from 0 h.blocks

/-- The number of allocation requests recorded in a log. -/
def requests : List Event → Nat
  | [] => 0
  | Event.alloc _ :: r => requests r + 1
  | Event.free _ :: r => requests r

/-- The number of failed allocation requests recorded in a log. -/
def failures : List Event → Nat
  | [] => 0
  | Event.alloc none :: r => failures r + 1
  | _ :: r => failures r

/-- One allocation request for a block with initial content `b`. `fits` is
false when the requested byte count is not representable. The request is
granted when it fits and the plan allows it. -/
def Heap.alloc (h : Heap) (fits : Bool) (b : Block) : ptr × Heap :=
  if fits && h.plan.headD true then
    (some h.blocks.length,
      { blocks := h.blocks ++ [some b], plan := h.plan.tail,
        log := h.log ++ [Event.alloc (some h.blocks.length)] })
  else
    (none, { h with plan := h.plan.tail, log := h.log ++ [Event.alloc none] })

/-- The call `malloc(sizeof(ndarray))`. -/
def malloc_struct (h : Heap) : ptr × Heap := h.alloc true (Block.struct ndarray.fresh)

/-- The call `malloc(nbytes)` for an array of `int` (`sizeof(int)` is 4): the
cells start indeterminate. -/
def malloc_ints (nbytes : Nat) (h : Heap) : ptr × Heap :=
  h.alloc true (Block.ints (List.replicate (nbytes / 4) none))

/-- The call `calloc(nmemb, size)`: a buffer of `nmemb * size` zero bytes; the
request fails when that product is not representable in `size_t`. -/
def calloc (nmemb size : Nat) (h : Heap) : ptr × Heap :=
  h.alloc (decide (nmemb * size < 2 ^ 64)) (Block.bytes (List.replicate (nmemb * size) 0))

/-- The call `free(p)`: nothing for `NULL`; the block must be live. -/
def free (p : ptr) (h : Heap) : Option Heap :=
  match p with
  | none => some h
  | some a =>
    match h.load a with
    | none => none
    | some _ => some { h with blocks := h.blocks.set a none, log := h.log ++ [Event.free a] }

/-- Read `p[k]` where `p` points to an array of `int`. -/
def Heap.read_int (h : Heap) (p : ptr) (k : Nat) : Option Int :=
  match p with
  | none => none
  | some a =>
    match h.load a with
    | some (Block.ints cells) => (cells.get? k).join
    | _ => none

/-- Write `p[k] = v` where `p` points to an array of `int`. -/
def Heap.write_int (h : Heap) (p : ptr) (k : Nat) (v : Int) : Option Heap :=
  match p with
  | none => none
  | some a =>
    match h.load a with
    | some (Block.ints cells) =>
      if k < cells.length then some (h.store a (Block.ints (cells.set k (some v)))) else none
    | _ => none

/-- The call `memcpy(dst, src, nbytes)` between two arrays of `int`. -/
def memcpy_ints (dst src : ptr) (nbytes : Nat) (h : Heap) : Option Heap :=
  match dst, src with
  | some d, some s =>
    match h.load d, h.load s with
    | some (Block.ints dc), some (Block.ints sc) =>
      if nbytes / 4 ≤ dc.length ∧ nbytes / 4 ≤ sc.length ∧ d ≠ s then
        some (h.store d (Block.ints (sc.take (nbytes / 4) ++ dc.drop (nbytes / 4))))
      else none
    | _, _ => none
  | _, _ => none

/-- Read the struct `*arr`. -/
def Heap.read_struct (h : Heap) (p : ptr) : Option ndarray :=
  match p with
  | none => none
  | some a =>
    match h.load a with
    | some (Block.struct s) => some s
    | _ => none

/-- Assign fields of the struct `*arr`: the struct becomes `f s`. -/
def Heap.modify_struct (h : Heap) (a : Nat) (f : ndarray → ndarray) : Option Heap :=
  match h.load a with
  | some (Block.struct s) => some (h.store a (Block.struct (f s)))
  | _ => none

/-- The caller's array: `p` points to a live array of `int` whose first
`vals.length` cells hold the values `vals`. -/
def holds_ints (h : Heap) (p : ptr) (vals : List Int) : Bool :=
  match p with
  | none => false
  | some a =>
    match h.load a with
    | some (Block.ints cells) => cells.take vals.length == vals.map some
    | _ => false

/-- The field access `arr->shape[i]`. -/
def arr_shape (h : Heap) (arr : ptr) (i : Nat) : Option Int :=
  match h.read_struct arr with
  | some s =>
    match s.shape with
    | some p => h.read_int p i
    | none => none
  | none => none

/-- The field access `arr->stride[i]`. -/
def arr_stride (h : Heap) (arr : ptr) (i : Nat) : Option Int :=
  match h.read_struct arr with
  | some s =>
    match s.stride with
    | some p => h.read_int p i
    | none => none
  | none => none

/-- The field access `arr->size`. -/
def arr_size (h : Heap) (arr : ptr) : Option Nat :=
  match h.read_struct arr with
  | some s => s.size
  | none => none

/-- The bytes of the buffer `arr->data`. -/
def arr_data (h : Heap) (arr : ptr) : Option (List Nat) :=
  match h.read_struct arr with
  | some s =>
    match s.data with
    | some (some d) =>
      match h.load d with
      | some (Block.bytes cells) => some cells
      | _ => none
    | _ => none
  | none => none

/-- The heap an execution ends in. -/
def Outcome.heap {α : Type} : Outcome α → Heap
  | Outcome.ret _ h => h
  | Outcome.undef h => h

/-- The value an execution returns, if it returns. -/
def Outcome.value {α : Type} : Outcome α → Option α
  | Outcome.ret v _ => some v
  | Outcome.undef _ => none

/-- A caller's heap holding one array of `int` with the values `vals` at
address 0, and the plan `plan` for the allocator. -/
def caller_heap (vals : List Int) (plan : List Bool) : Heap :=
  { blocks := [some (Block.ints (vals.map some))], plan := plan, log := [] }

/-! ## `ndarray.c` -/

/-- The function `get_size`. For a tag that matches no `case` the switch falls
through and the function ends without a `return`: there is no value (`none`). -/
def get_size (dtype : dtype_t) : Option Nat :=
  if dtype = DTYPE_FLOAT32 then some 4        -- sizeof(float)
  else if dtype = DTYPE_FLOAT64 then some 8   -- sizeof(double)
  else if dtype = DTYPE_INT32 then some 4     -- sizeof(int32_t)
  else if dtype = DTYPE_INT64 then some 8     -- sizeof(int64_t)
  else none

/-- The loop `for(int i=ndim-2; i>=0; i--) stride_arr[i]=shape[i+1]*stride_arr[i+1];`
of `calculate_strides`. The counter is `i + 1`: at `0` the test `i>=0` fails. -/
def calculate_strides_loop (shape : ptr) (stride_arr : Nat) : Nat → Heap → Outcome Unit
  | 0, h => Outcome.ret () h
  | i + 1, h =>
    match h.read_int shape (i + 1), h.read_int (some stride_arr) (i + 1) with
    | some s, some t =>
      match h.write_int (some stride_arr) i (wrap_int (s * t)) with
      | some h1 => calculate_strides_loop shape stride_arr i h1
      | none => Outcome.undef h
    | _, _ => Outcome.undef h

/-- The function `calculate_strides`. -/
def calculate_strides (shape : ptr) (ndim : Int) (ele_size : Nat) (h0 : Heap) : Outcome ptr :=
  match malloc_ints (wrap_size (to_size_t ndim * 4)) h0 with
  | (none, h1) => Outcome.ret none h1
  | (some stride_arr, h1) =>
    if ndim - 1 < 0 then Outcome.undef h1
    else
      match h1.write_int (some stride_arr) (ndim - 1).toNat (wrap_int ele_size) with
      | none => Outcome.undef h1
      | some h2 =>
        match calculate_strides_loop shape stride_arr (ndim - 1).toNat h2 with
        | Outcome.ret _ h3 => Outcome.ret (some stride_arr) h3
        | Outcome.undef h3 => Outcome.undef h3

/-- The loop `for(int i=0; i<ndim; i++) arr->size*=shape[i];` of `create_ndarray`.
The arguments are `i` and `ndim - i`: at `ndim - i = 0` the test `i<ndim` fails. -/
def size_loop (arr : Nat) (shape : ptr) : Nat → Nat → Heap → Outcome Unit
  | _, 0, h => Outcome.ret () h
  | i, n + 1, h =>
    match h.read_int shape i, h.read_struct (some arr) with
    | some v, some s =>
      match s.size with
      | some sz =>
        size_loop arr shape (i + 1) n
          (h.store arr (Block.struct { s with size := some (wrap_size (sz * to_size_t v)) }))
      | none => Outcome.undef h
    | _, _ => Outcome.undef h

/-- The failure branch of `create_ndarray`:
`free(arr->shape); if(arr->stride) free(arr->stride); free(arr); return NULL;`. -/
def create_ndarray_cleanup (arr : Nat) (s : ndarray) (h : Heap) : Outcome ptr :=
  match s.shape, s.stride with
  | some shape, some stride =>
    match free shape h with
    | none => Outcome.undef h
    | some h1 =>
      match (if stride.isSome then free stride h1 else some h1) with
      | none => Outcome.undef h1
      | some h2 =>
        match free (some arr) h2 with
        | none => Outcome.undef h2
        | some h3 => Outcome.ret none h3
  | _, _ => Outcome.undef h

/-- The second half of `create_ndarray`, from `size_t item_size=get_size(dtype);`
to the end, with `arr` the address of the struct. -/
def create_ndarray_layout (arr : Nat) (shape : ptr) (ndim : Int) (dtype : dtype_t)
    (h6 : Heap) : Outcome ptr :=
  -- size_t item_size=get_size(dtype);
  match get_size dtype with
  | none => Outcome.undef h6
  | some item_size =>
    -- arr->stride=calculate_strides(shape, ndim, item_size);
    match calculate_strides shape ndim item_size h6 with
    | Outcome.undef h7 => Outcome.undef h7
    | Outcome.ret stride h7 =>
      match h7.modify_struct arr (fun s => { s with stride := some stride }) with
      | none => Outcome.undef h7
      | some h8 =>
        -- arr->data=calloc(arr->size, item_size);
        match h8.read_struct (some arr) with
        | none => Outcome.undef h8
        | some s8 =>
          match s8.size with
          | none => Outcome.undef h8
          | some size =>
            match calloc size item_size h8 with
            | (data, h9) =>
              match h9.modify_struct arr (fun s => { s with data := some data }) with
              | none => Outcome.undef h9
              | some h10 =>
                if data.isNone || stride.isNone then
                  -- if(!arr->data || !arr->stride){ ... return NULL; }
                  match h10.read_struct (some arr) with
                  | none => Outcome.undef h10
                  | some s10 => create_ndarray_cleanup arr s10 h10
                else Outcome.ret (some arr) h10   -- return arr;

/-- The function `create_ndarray`. -/
def create_ndarray (shape : ptr) (ndim : Int) (dtype : dtype_t) (h0 : Heap) : Outcome ptr :=
  -- ndarray* arr=malloc(sizeof(ndarray)); if(!arr) return NULL;
  match malloc_struct h0 with
  | (none, h1) => Outcome.ret none h1
  | (some arr, h1) =>
    -- arr->shape=malloc(ndim*sizeof(int));
    match malloc_ints (wrap_size (to_size_t ndim * 4)) h1 with
    | (none, h2) =>
      -- if(!arr->shape){ free(arr); return NULL; }
      match free (some arr) h2 with
      | none => Outcome.undef h2
      | some h3 => Outcome.ret none h3
    | (some sp, h2) =>
      match h2.modify_struct arr (fun s => { s with shape := some (some sp) }) with
      | none => Outcome.undef h2
      | some h3 =>
        -- memcpy(arr->shape, shape, ndim*sizeof(int));
        match memcpy_ints (some sp) shape (wrap_size (to_size_t ndim * 4)) h3 with
        | none => Outcome.undef h3
        | some h4 =>
          -- arr->ndim=ndim; arr->size=1;
          match h4.modify_struct arr (fun s => { s with ndim := some ndim, size := some 1 }) with
          | none => Outcome.undef h4
          | some h5 =>
            -- for(int i=0; i<ndim; i++){ arr->size*=shape[i]; }
            match size_loop arr shape 0 ndim.toNat h5 with
            | Outcome.undef h6 => Outcome.undef h6
            | Outcome.ret _ h6 => create_ndarray_layout arr shape ndim dtype h6

/-- The function `free_ndarray`. -/
def free_ndarray (arr : ptr) (h : Heap) : Outcome Unit :=
  match arr with
  | none => Outcome.ret () h      -- if (!arr) return;
  | some a =>
    match h.read_struct (some a) with
    | none => Outcome.undef h
    | some s =>
      match s.data, s.shape, s.stride with
      | some data, some shape, some stride =>
        match free data h with
        | none => Outcome.undef h
        | some h1 =>
          match free shape h1 with
          | none => Outcome.undef h1
          | some h2 =>
            match free stride h2 with
            | none => Outcome.undef h2
            | some h3 =>
              match free (some a) h3 with
              | none => Outcome.undef h3
              | some h4 => Outcome.ret () h4
      | _, _, _ => Outcome.undef h

/-! ## Pure descriptions of the two loops -/

/-- The strides of the axes to the left of and including the innermost one,
given the extents of the axes AFTER the first: the innermost stride is `w`, each
other one the 32-bit product of the next extent and the next stride. -/
def row_major (w : Int) : List Int → List Int
  | [] => [w]
  | y :: r => wrap_int (y * (row_major w r).headD 0) :: row_major w r

/-- The value of `arr->size` after multiplying `sz` by the extents in turn. -/
def size_after (sz : Nat) : List Int → Nat
  | [] => sz
  | v :: r => size_after (wrap_size (sz * to_size_t v)) r

/-! ## The heap after a successful `create_ndarray` -/

/-- The struct of the array that `create_ndarray` returns, built at address `L`. -/
def built_struct (L : Nat) (vals : List Int) : ndarray :=
  { data := some (some (L + 3)), shape := some (some (L + 1)), stride := some (some (L + 2)),
    ndim := some (vals.length : Int), size := some (size_after 1 vals), dtype := none,
    owns_data := none }

/-- The heap that a successful `create_ndarray` leaves. -/
def built_heap (h : Heap) (vals : List Int) (w : Nat) : Heap :=
  { blocks := h.blocks ++
      [some (Block.struct (built_struct h.blocks.length vals)),
       some (Block.ints (vals.map some)),
       some (Block.ints ((row_major (wrap_int w) (vals.drop 1)).map some)),
       some (Block.bytes (List.replicate (size_after 1 vals * w) 0))],
    plan := h.plan.tail.tail.tail.tail,
    log := h.log ++ [Event.alloc (some h.blocks.length), Event.alloc (some (h.blocks.length + 1)),
      Event.alloc (some (h.blocks.length + 2)), Event.alloc (some (h.blocks.length + 3))] }

/-! ## Further observations of an array -/

/-- The field access `arr->dtype`; `none` when the field was never assigned
(or `arr` does not point to a struct). -/
def arr_dtype (h : Heap) (arr : ptr) : Option dtype_t :=
  match h.read_struct arr with
  | some s => s.dtype
  | none => none

/-- The log of `h'` continues the log of `h`: nothing recorded is lost. -/
def log_extends (h h' : Heap) : Prop := ∃ E, h'.log = h.log ++ E

/-- The pointers returned by the allocation requests recorded in a log, in
the order of the requests. -/
def alloc_results : List Event → List ptr
  | [] => []
  | Event.alloc p :: r => p :: alloc_results r
  | Event.free _ :: r => alloc_results r

/-! ## Element offsets -/

/-- Modelled from the spec: the byte offset that `ndarray_getptr` adds to the
data pointer for an index tuple, the sum of `indices[i] * stride[i]`. The
function is declared in `ndarray.h`; its definition is not among the sources. -/
def byte_offset : List Int → List Int → Int
  | i :: is, t :: ts => i * t + byte_offset is ts
  | _, _ => 0

/-- An index tuple is in bounds for a shape: it has the length of the shape
and `0 <= indices[i] < shape[i]` for every axis. -/
def in_bounds : List Int → List Int → Prop
  | [], [] => True
  | i :: is, s :: ss => 0 ≤ i ∧ i < s ∧ in_bounds is ss
  | _, _ => False

/-- The row-major strides of a shape in unbounded integers: the stride of an
axis is `w` times the product of the extents to its right. -/
def strides_exact (w : Int) : List Int → List Int
  | [] => []
  | _ :: l => (l.prod * w) :: strides_exact w l

/-- The number of the element that an index tuple designates, counting the
elements of the shape in row-major order from 0. -/
def rank : List Int → List Int → Int
  | i :: is, _ :: ss => i * ss.prod + rank is ss
  | _, _ => 0

/-! ## The array accesses of the two loops -/

/-- One access to an array element made by `calculate_strides` or by the size
loop of `create_ndarray`, with the index it uses. -/
inductive Access where
  /-- A read of `shape[i]`. -/
  | read_shape (i : Int)
  /-- A read of `stride_arr[i]`. -/
  | read_stride (i : Int)
  /-- A write of `stride_arr[i]`. -/
  | write_stride (i : Int)
deriving DecidableEq

/-- The index an access uses. -/
def Access.index : Access → Int
  | Access.read_shape i => i
  | Access.read_stride i => i
  | Access.write_stride i => i

/-- An execution together with the array accesses it made, in order, and
the number of loop iterations it ran. -/
structure Traced (α : Type) where
  out : Outcome α
  accesses : List Access
  iterations : Nat

/-- The loop of `calculate_strides` as in `calculate_strides_loop`, recording
the accesses of each statement `stride_arr[i]=shape[i+1]*stride_arr[i+1];`. -/
def calculate_strides_loop_traced (shape : ptr) (stride_arr : Nat) : Nat → Heap → Traced Unit
  | 0, h => { out := Outcome.ret () h, accesses := [], iterations := 0 }
  | i + 1, h =>
    match h.read_int shape (i + 1), h.read_int (some stride_arr) (i + 1) with
    | some s, some t =>
      match h.write_int (some stride_arr) i (wrap_int (s * t)) with
      | some h1 =>
        { out := (calculate_strides_loop_traced shape stride_arr i h1).out,
          accesses := [Access.read_shape ((i : Int) + 1), Access.read_stride ((i : Int) + 1),
            Access.write_stride (i : Int)] ++
            (calculate_strides_loop_traced shape stride_arr i h1).accesses,
          iterations := (calculate_strides_loop_traced shape stride_arr i h1).iterations + 1 }
      | none =>
        { out := Outcome.undef h,
          accesses := [Access.read_shape ((i : Int) + 1), Access.read_stride ((i : Int) + 1),
            Access.write_stride (i : Int)],
          iterations := 1 }
    | _, _ =>
      { out := Outcome.undef h,
        accesses := [Access.read_shape ((i : Int) + 1), Access.read_stride ((i : Int) + 1),
          Access.write_stride (i : Int)],
        iterations := 1 }

/-- The function `calculate_strides` as in `calculate_strides`, recording the
write `stride_arr[ndim-1]=ele_size;` and the accesses of the loop. -/
def calculate_strides_traced (shape : ptr) (ndim : Int) (ele_size : Nat) (h0 : Heap) :
    Traced ptr :=
  match malloc_ints (wrap_size (to_size_t ndim * 4)) h0 with
  | (none, h1) => { out := Outcome.ret none h1, accesses := [], iterations := 0 }
  | (some stride_arr, h1) =>
    if ndim - 1 < 0 then
      { out := Outcome.undef h1, accesses := [Access.write_stride (ndim - 1)], iterations := 0 }
    else
      match h1.write_int (some stride_arr) (ndim - 1).toNat (wrap_int ele_size) with
      | none =>
        { out := Outcome.undef h1, accesses := [Access.write_stride (ndim - 1)],
          iterations := 0 }
      | some h2 =>
        { out :=
            match (calculate_strides_loop_traced shape stride_arr (ndim - 1).toNat h2).out with
            | Outcome.ret _ h3 => Outcome.ret (some stride_arr) h3
            | Outcome.undef h3 => Outcome.undef h3,
          accesses := Access.write_stride (ndim - 1) ::
            (calculate_strides_loop_traced shape stride_arr (ndim - 1).toNat h2).accesses,
          iterations :=
            (calculate_strides_loop_traced shape stride_arr (ndim - 1).toNat h2).iterations }

/-- The size loop of `create_ndarray` as in `size_loop`, recording the read
`shape[i]` of each statement `arr->size*=shape[i];`. -/
def size_loop_traced (arr : Nat) (shape : ptr) : Nat → Nat → Heap → Traced Unit
  | _, 0, h => { out := Outcome.ret () h, accesses := [], iterations := 0 }
  | i, n + 1, h =>
    match h.read_int shape i, h.read_struct (some arr) with
    | some v, some s =>
      match s.size with
      | some sz =>
        { out := (size_loop_traced arr shape (i + 1) n
            (h.store arr (Block.struct
              { s with size := some (wrap_size (sz * to_size_t v)) }))).out,
          accesses := Access.read_shape (i : Int) ::
            (size_loop_traced arr shape (i + 1) n
              (h.store arr (Block.struct
                { s with size := some (wrap_size (sz * to_size_t v)) }))).accesses,
          iterations := (size_loop_traced arr shape (i + 1) n
            (h.store arr (Block.struct
              { s with size := some (wrap_size (sz * to_size_t v)) }))).iterations + 1 }
      | none =>
        { out := Outcome.undef h, accesses := [Access.read_shape (i : Int)], iterations := 1 }
    | _, _ =>
      { out := Outcome.undef h, accesses := [Access.read_shape (i : Int)], iterations := 1 }

/-! ## Lemmas on the heap -/

theorem load_lt {h : Heap} {a : Nat} {b : Block} (hl : h.load a = some b) :
    a < h.blocks.length := by
  unfold Heap.load at hl
  by_contra hc
  rw [List.get?_eq_none.mpr (by omega)] at hl
  simp at hl

theorem load_store_same {h : Heap} {a : Nat} (b : Block) (ha : a < h.blocks.length) :
    (h.store a b).load a = some b := by
  simp [Heap.load, Heap.store, List.getElem?_set, ha]

theorem load_store_ne {h : Heap} {a c : Nat} (b : Block) (hne : a ≠ c) :
    (h.store a b).load c = h.load c := by
  simp [Heap.load, Heap.store, List.getElem?_set, hne]

theorem store_store (h : Heap) (a : Nat) (b c : Block) :
    (h.store a b).store a c = h.store a c := by
  simp [Heap.store, List.set_set]

theorem set_of_get_eq {α : Type} : ∀ (l : List α) (a : Nat) (x : α),
    l.get? a = some x → l.set a x = l
  | [], _, _, h => by simp at h
  | y :: l, 0, x, h => by simp at h; simp [h]
  | y :: l, a + 1, x, h => by
    simp only [List.get?_cons_succ] at h
    simp [set_of_get_eq l a x h]

theorem store_load_self {h : Heap} {a : Nat} {b : Block} (hl : h.load a = some b) :
    h.store a b = h := by
  have hg : h.blocks.get? a = some (some b) := by
    unfold Heap.load at hl
    cases hx : h.blocks.get? a with
    | none => rw [hx] at hl; simp at hl
    | some y => rw [hx] at hl; simp at hl; rw [hl]
  cases h with
  | mk blocks plan log =>
    simp only [Heap.store, Heap.mk.injEq, and_true]
    exact set_of_get_eq _ _ _ hg

theorem read_int_store_ne {h : Heap} {a c : Nat} (b : Block) (k : Nat) (hne : a ≠ c) :
    (h.store a b).read_int (some c) k = h.read_int (some c) k := by
  simp [Heap.read_int, load_store_ne b hne]

theorem read_int_store_other {h : Heap} {a : Nat} {p : ptr} (b : Block) (k : Nat)
    (hne : p ≠ some a) : (h.store a b).read_int p k = h.read_int p k := by
  cases p with
  | none => rfl
  | some c =>
    have hc : a ≠ c := fun e => hne (by rw [e])
    exact read_int_store_ne b k hc

theorem read_int_lt {h : Heap} {p : ptr} {k : Nat} {v : Int} (hr : h.read_int p k = some v) :
    ∃ a, p = some a ∧ a < h.blocks.length := by
  cases p with
  | none => simp [Heap.read_int] at hr
  | some a =>
    refine ⟨a, rfl, ?_⟩
    unfold Heap.read_int at hr
    simp only at hr
    cases hl : h.load a with
    | none => rw [hl] at hr; simp at hr
    | some b => exact load_lt hl

theorem load_append {B : List (Option Block)} {P : List Bool} {G : List Event}
    (X : List (Option Block)) (P1 : List Bool) (G1 : List Event) {a : Nat} (ha : a < B.length) :
    (Heap.mk (B ++ X) P1 G1).load a = (Heap.mk B P G).load a := by
  simp [Heap.load, List.getElem?_append_left ha]

theorem read_int_append {h : Heap} {p : ptr} {k : Nat} {v : Int}
    (X : List (Option Block)) (P1 : List Bool) (G1 : List Event)
    (hr : h.read_int p k = some v) :
    (Heap.mk (h.blocks ++ X) P1 G1).read_int p k = some v := by
  obtain ⟨a, rfl, ha⟩ := read_int_lt hr
  have hl : (Heap.mk (h.blocks ++ X) P1 G1).load a = h.load a := by
    cases h with
    | mk B P G => exact load_append X P1 G1 ha
  unfold Heap.read_int at hr ⊢
  simp only at hr ⊢
  rw [hl]
  exact hr

/-! ## The two loops -/

theorem size_loop_spec (arr : Nat) (shape : ptr) (hne : shape ≠ some arr) :
    ∀ (vals : List Int) (i : Nat) (h : Heap) (s : ndarray) (sz : Nat),
      h.load arr = some (Block.struct s) → s.size = some sz →
      (∀ k v, vals.get? k = some v → h.read_int shape (i + k) = some v) →
      size_loop arr shape i vals.length h =
        Outcome.ret () (h.store arr (Block.struct { s with size := some (size_after sz vals) }))
  | [], i, h, s, sz, hl, hs, _ => by
    have e : ({ s with size := some (size_after sz []) } : ndarray) = s := by
      cases s; simp_all [size_after]
    rw [e, store_load_self hl]
    rfl
  | v :: r, i, h, s, sz, hl, hs, hr => by
    have h0 : h.read_int shape i = some v := by simpa using hr 0 v (by simp)
    have hst : h.read_struct (some arr) = some s := by simp [Heap.read_struct, hl]
    simp only [List.length_cons, size_loop, h0, hst, hs]
    have ih := size_loop_spec arr shape hne r (i + 1)
      (h.store arr (Block.struct { s with size := some (wrap_size (sz * to_size_t v)) }))
      { s with size := some (wrap_size (sz * to_size_t v)) } (wrap_size (sz * to_size_t v))
      (load_store_same _ (load_lt hl)) rfl
      (by
        intro k x hk
        rw [read_int_store_other _ _ hne]
        have := hr (k + 1) x (by simpa using hk)
        rw [← this]; congr 1; omega)
    rw [ih, store_store]
    rfl

theorem set_replicate_append {α : Type} (x v : α) (X : List α) :
    ∀ i : Nat, (List.replicate (i + 1) x ++ X).set i v = List.replicate i x ++ v :: X
  | 0 => by simp
  | i + 1 => by
    have ih := set_replicate_append x v X i
    simp only [List.replicate_succ, List.cons_append, List.set_cons_succ] at ih ⊢
    rw [ih]

theorem get_replicate_append {α : Type} (x : α) (X : List α) (i : Nat) :
    (List.replicate i x ++ X).get? i = X.head? := by
  rw [List.get?_eq_getElem?, List.getElem?_append_right (by simp)]
  cases X <;> simp

theorem row_major_ne_nil (w : Int) : ∀ l : List Int, row_major w l ≠ []
  | [] => by simp [row_major]
  | _ :: _ => by simp [row_major]

theorem row_major_length (w : Int) : ∀ l : List Int, (row_major w l).length = l.length + 1
  | [] => by simp [row_major]
  | _ :: r => by simp [row_major, row_major_length w r]

theorem calculate_strides_loop_spec (shape : ptr) (sa : Nat) (w : Int) (vals : List Int)
    (hne : shape ≠ some sa) :
    ∀ (k : Nat) (h : Heap), k < vals.length →
      h.load sa = some (Block.ints
        (List.replicate k none ++ (row_major w (vals.drop (k + 1))).map some)) →
      (∀ j v, vals.get? j = some v → h.read_int shape j = some v) →
      calculate_strides_loop shape sa k h =
        Outcome.ret () (h.store sa (Block.ints ((row_major w (vals.drop 1)).map some)))
  | 0, h, _, hl, _ => by
    simp only [List.replicate_zero, List.nil_append, zero_add] at hl
    rw [store_load_self hl]
    rfl
  | i + 1, h, hk, hl, hr => by
    obtain ⟨y, hy⟩ : ∃ y, vals.get? (i + 1) = some y := by
      rw [List.get?_eq_getElem?, List.getElem?_eq_getElem hk]; exact ⟨_, rfl⟩
    have hd : vals.drop (i + 1) = y :: vals.drop (i + 1 + 1) := by
      rw [List.get?_eq_getElem?, List.getElem?_eq_getElem hk] at hy
      simp only [Option.some.injEq] at hy
      rw [List.drop_eq_getElem_cons hk, hy]
    obtain ⟨t, ts, ht⟩ : ∃ t ts, row_major w (vals.drop (i + 1 + 1)) = t :: ts := by
      cases hx : row_major w (vals.drop (i + 1 + 1)) with
      | nil => exact absurd hx (row_major_ne_nil _ _)
      | cons t ts => exact ⟨t, ts, rfl⟩
    have h1 : h.read_int shape (i + 1) = some y := hr _ _ hy
    have h2 : h.read_int (some sa) (i + 1) = some t := by
      simp only [Heap.read_int, hl]
      rw [get_replicate_append, ht]
      simp
    have hlen : i < (List.replicate (i + 1) (none : Option Int) ++
        (row_major w (vals.drop (i + 1 + 1))).map some).length := by simp; omega
    have h3 : h.write_int (some sa) i (wrap_int (y * t)) =
        some (h.store sa (Block.ints (List.replicate i none ++
          (row_major w (vals.drop (i + 1))).map some))) := by
      simp only [Heap.write_int, hl, hlen, if_true]
      rw [set_replicate_append, hd]
      simp [row_major, ht]
    simp only [calculate_strides_loop, h1, h2, h3]
    rw [calculate_strides_loop_spec shape sa w vals hne i _ (by omega)
      (load_store_same _ (load_lt hl))
      (by intro j v hj; rw [read_int_store_other _ _ hne]; exact hr j v hj)]
    rw [store_store]

/-! ## `calculate_strides` -/

theorem holds_ints_elim {h : Heap} {p : ptr} {vals : List Int}
    (hv : holds_ints h p vals = true) :
    ∃ a cells, p = some a ∧ h.load a = some (Block.ints cells) ∧
      cells.take vals.length = vals.map some := by
  unfold holds_ints at hv
  cases p with
  | none => simp at hv
  | some a =>
    simp only at hv
    cases hl : h.load a with
    | none => rw [hl] at hv; simp at hv
    | some b =>
      rw [hl] at hv
      cases b with
      | ints cells => exact ⟨a, cells, rfl, hl, by simpa using hv⟩
      | bytes c => simp at hv
      | struct s => simp at hv

theorem holds_ints_read {h : Heap} {p : ptr} {vals : List Int}
    (hv : holds_ints h p vals = true) (k : Nat) (v : Int) (hk : vals.get? k = some v) :
    h.read_int p k = some v := by
  obtain ⟨a, cells, rfl, hl, ht⟩ := holds_ints_elim hv
  have hlt : k < vals.length := by
    rw [List.get?_eq_getElem?] at hk
    exact (List.getElem?_eq_some_iff.mp hk).1
  have hc : cells.get? k = some (some v) := by
    have e1 : (cells.take vals.length).get? k = cells.get? k := by
      simp only [List.get?_eq_getElem?]
      exact List.getElem?_take_of_lt hlt
    rw [← e1, ht]
    simp only [List.get?_eq_getElem?] at hk ⊢
    simp [hk]
  simp only [Heap.read_int, hl, hc]
  rfl

theorem int_array_cells {n : Nat} (hn : n < 2 ^ 31) :
    wrap_size (to_size_t (n : Int) * 4) / 4 = n := by
  have e : to_size_t (n : Int) = n := by
    unfold to_size_t
    have : ((n : Int) % 2 ^ 64) = (n : Int) := Int.emod_eq_of_lt (by omega) (by norm_num at hn ⊢; omega)
    rw [this]; simp
  rw [e]
  unfold wrap_size
  rw [Nat.mod_eq_of_lt (by norm_num at hn ⊢; omega)]
  omega

theorem calculate_strides_fail (shape : ptr) (ndim : Int) (w : Nat) (h : Heap)
    (hp : h.plan.headD true = false) :
    calculate_strides shape ndim w h =
      Outcome.ret none { h with plan := h.plan.tail, log := h.log ++ [Event.alloc none] } := by
  simp only [calculate_strides, malloc_ints, Heap.alloc, hp, Bool.and_false, Bool.false_eq_true,
    if_false]

theorem calculate_strides_ok (shape : ptr) (vals : List Int) (w : Nat) (h : Heap)
    (hv : holds_ints h shape vals = true) (h1 : 1 ≤ vals.length) (hlt : vals.length < 2 ^ 31)
    (hp : h.plan.headD true = true) :
    calculate_strides shape (vals.length : Int) w h =
      Outcome.ret (some h.blocks.length)
        { blocks := h.blocks ++
            [some (Block.ints ((row_major (wrap_int w) (vals.drop 1)).map some))],
          plan := h.plan.tail,
          log := h.log ++ [Event.alloc (some h.blocks.length)] } := by
  obtain ⟨m, hm⟩ : ∃ m, vals.length = m + 1 := ⟨vals.length - 1, by omega⟩
  obtain ⟨a, cells, rfl, hl, ht⟩ := holds_ints_elim hv
  have ha := load_lt hl
  have hne : (some a : ptr) ≠ some h.blocks.length := by
    intro e; simp at e; omega
  have hneg : ¬ ((vals.length : Int) - 1 < 0) := by omega
  have htn : ((vals.length : Int) - 1).toNat = m := by omega
  simp only [calculate_strides, malloc_ints, Heap.alloc, hp, Bool.and_self, if_true,
    int_array_cells hlt, hneg, if_false, htn]
  -- the heap after the allocation
  generalize hh1 : (Heap.mk (h.blocks ++ [some (Block.ints (List.replicate vals.length none))])
    h.plan.tail (h.log ++ [Event.alloc (some h.blocks.length)])) = h1
  have hl1 : h1.load h.blocks.length =
      some (Block.ints (List.replicate (m + 1) none)) := by
    rw [← hh1, hm]; simp [Heap.load]
  have hw : h1.write_int (some h.blocks.length) m (wrap_int w) =
      some (h1.store h.blocks.length (Block.ints (List.replicate m none ++
        (row_major (wrap_int w) (vals.drop (m + 1))).map some))) := by
    have hd : vals.drop (m + 1) = [] := by rw [← hm]; simp
    simp only [Heap.write_int, hl1, List.length_replicate, Nat.lt_succ_self, if_true, hd,
      row_major, List.map_cons, List.map_nil]
    have := set_replicate_append (none : Option Int) (some (wrap_int w)) [] m
    simp only [List.append_nil] at this
    rw [this]
  rw [hw]
  dsimp only
  have hlen1 : h.blocks.length < h1.blocks.length := by rw [← hh1]; simp
  rw [calculate_strides_loop_spec (some a) h.blocks.length (wrap_int w) vals hne m _ (by omega)
    (load_store_same _ hlen1)
    (by
      intro j v hj
      rw [read_int_store_other _ _ hne, ← hh1]
      exact read_int_append _ _ _ (holds_ints_read hv j v hj))]
  simp only [store_store]
  rw [← hh1]
  simp [Heap.store]


/-! ## Blocks appended to a heap -/

theorem get_tail {α : Type} (B X : List α) (i : Nat) :
    (B ++ X).get? (B.length + i) = X.get? i := by
  simp [List.getElem?_append_right]

theorem set_tail {α : Type} (B X : List α) (i : Nat) (v : α) :
    (B ++ X).set (B.length + i) v = B ++ X.set i v := by
  rw [List.set_append_right _ _ (by omega)]
  simp

theorem load_tail (B X : List (Option Block)) (P : List Bool) (G : List Event) (i : Nat) :
    (Heap.mk (B ++ X) P G).load (B.length + i) = (X.get? i).join := by
  unfold Heap.load; rw [get_tail]

theorem load_tail_zero (B X : List (Option Block)) (P : List Bool) (G : List Event) :
    (Heap.mk (B ++ X) P G).load B.length = (X.get? 0).join := load_tail B X P G 0

theorem store_tail (B X : List (Option Block)) (P : List Bool) (G : List Event) (i : Nat)
    (b : Block) :
    (Heap.mk (B ++ X) P G).store (B.length + i) b = Heap.mk (B ++ X.set i (some b)) P G := by
  unfold Heap.store; rw [set_tail]

theorem store_tail_zero (B X : List (Option Block)) (P : List Bool) (G : List Event)
    (b : Block) :
    (Heap.mk (B ++ X) P G).store B.length b = Heap.mk (B ++ X.set 0 (some b)) P G :=
  store_tail B X P G 0 b

theorem free_tail (B X : List (Option Block)) (P : List Bool) (G : List Event) (i : Nat) :
    free (some (B.length + i)) (Heap.mk (B ++ X) P G) =
      if (X.get? i).join.isSome = true then
        some (Heap.mk (B ++ X.set i none) P (G ++ [Event.free (B.length + i)]))
      else none := by
  simp only [free, load_tail, set_tail]
  cases (X.get? i).join <;> simp

theorem free_tail_zero (B X : List (Option Block)) (P : List Bool) (G : List Event) :
    free (some B.length) (Heap.mk (B ++ X) P G) =
      if (X.get? 0).join.isSome = true then
        some (Heap.mk (B ++ X.set 0 none) P (G ++ [Event.free B.length]))
      else none :=
  free_tail B X P G 0

theorem load_old (h : Heap) (X : List (Option Block)) (P : List Bool) (G : List Event) {a : Nat}
    (ha : a < h.blocks.length) : (Heap.mk (h.blocks ++ X) P G).load a = h.load a := by
  simp [Heap.load, List.getElem?_append_left ha]

theorem modify_struct_tail_zero (B X : List (Option Block)) (s : ndarray) (P : List Bool)
    (G : List Event) (f : ndarray → ndarray) :
    (Heap.mk (B ++ some (Block.struct s) :: X) P G).modify_struct B.length f =
      some (Heap.mk (B ++ some (Block.struct (f s)) :: X) P G) := by
  simp [Heap.modify_struct, load_tail_zero, store_tail_zero]

theorem read_struct_tail_zero (B X : List (Option Block)) (s : ndarray) (P : List Bool)
    (G : List Event) :
    (Heap.mk (B ++ some (Block.struct s) :: X) P G).read_struct (some B.length) = some s := by
  simp [Heap.read_struct, load_tail_zero]

/-! ## `create_ndarray` -/

theorem create_ndarray_meta_fail (shape : ptr) (ndim : Int) (dtype : dtype_t) (h : Heap)
    (hm : h.plan.headD true = false) :
    create_ndarray shape ndim dtype h =
      Outcome.ret none { h with plan := h.plan.tail, log := h.log ++ [Event.alloc none] } := by
  simp only [create_ndarray, malloc_struct, Heap.alloc, hm, Bool.and_false, Bool.false_eq_true,
    if_false]

theorem create_ndarray_shape_fail (shape : ptr) (ndim : Int) (dtype : dtype_t) (h : Heap)
    (hm : h.plan.headD true = true) (hs : h.plan.tail.headD true = false) :
    create_ndarray shape ndim dtype h =
      Outcome.ret none
        { blocks := h.blocks ++ [none], plan := h.plan.tail.tail,
          log := h.log ++ [Event.alloc (some h.blocks.length), Event.alloc none,
            Event.free h.blocks.length] } := by
  simp only [create_ndarray, malloc_struct, malloc_ints, Heap.alloc, hm, hs, Bool.and_self,
    Bool.and_false, Bool.false_eq_true, if_false, if_true, free, Heap.load]
  simp

theorem create_ndarray_start (shape : ptr) (vals : List Int) (dtype : dtype_t) (h : Heap)
    (hv : holds_ints h shape vals = true) (hlt : vals.length < 2 ^ 31)
    (hm : h.plan.headD true = true) (hs : h.plan.tail.headD true = true) :
    create_ndarray shape (vals.length : Int) dtype h =
      create_ndarray_layout h.blocks.length shape (vals.length : Int) dtype
        { blocks := h.blocks ++
            [some (Block.struct
                { data := none, shape := some (some (h.blocks.length + 1)), stride := none,
                  ndim := some (vals.length : Int), size := some (size_after 1 vals),
                  dtype := none, owns_data := none }),
             some (Block.ints (vals.map some))],
          plan := h.plan.tail.tail,
          log := h.log ++ [Event.alloc (some h.blocks.length),
            Event.alloc (some (h.blocks.length + 1))] } := by
  obtain ⟨a, cells, rfl, hl, ht⟩ := holds_ints_elim hv
  have ha := load_lt hl
  simp only [create_ndarray, malloc_struct, malloc_ints, Heap.alloc, hm, hs, Bool.and_self,
    if_true, int_array_cells hlt]
  simp only [List.append_assoc, List.singleton_append, List.length_append, List.length_singleton]
  rw [modify_struct_tail_zero]
  dsimp only
  have hcl : vals.length ≤ cells.length := by
    have := congrArg List.length ht
    simp only [List.length_take, List.length_map] at this
    omega
  have e4 : ∀ (x : Option Block) (P : List Bool) (G : List Event),
      memcpy_ints (some (h.blocks.length + 1)) (some a)
        (wrap_size (to_size_t (vals.length : Int) * 4))
        (Heap.mk (h.blocks ++ [x, some (Block.ints (List.replicate vals.length none))]) P G) =
      some (Heap.mk (h.blocks ++ [x, some (Block.ints (vals.map some))]) P G) := by
    intro x P G
    have hne : ¬ (h.blocks.length + 1 = a) := by omega
    simp only [memcpy_ints, load_tail, load_old _ _ _ _ ha, hl, int_array_cells hlt,
      List.get?_cons_succ, List.get?_cons_zero, Option.join, Option.bind_some, id,
      List.length_replicate, le_refl, hcl, ne_eq, hne, not_false_eq_true, and_self, if_true,
      store_tail, ht]
    simp [hcl, ht]
  rw [e4]
  dsimp only
  rw [modify_struct_tail_zero]
  dsimp only
  have e6 := size_loop_spec h.blocks.length (some a) (by simp; omega) vals 0
    (Heap.mk (h.blocks ++ [some (Block.struct
                { data := none, shape := some (some (h.blocks.length + 1)), stride := none,
                  ndim := some (vals.length : Int), size := some 1,
                  dtype := none, owns_data := none }),
              some (Block.ints (vals.map some))]) h.plan.tail.tail
      (h.log ++ [Event.alloc (some h.blocks.length), Event.alloc (some (h.blocks.length + 1))]))
    _ 1 (by rw [load_tail_zero]; rfl) rfl
    (by
      intro k v hk
      rw [zero_add]
      exact read_int_append _ _ _ (holds_ints_read hv k v hk))
  rw [Int.toNat_ofNat]
  dsimp only [ndarray.fresh] at e6 ⊢
  rw [e6]
  simp only [store_tail_zero, List.set_cons_zero]

theorem holds_ints_grow {h : Heap} {p : ptr} {vals : List Int}
    (hv : holds_ints h p vals = true) (X : List (Option Block)) (P : List Bool)
    (G : List Event) : holds_ints (Heap.mk (h.blocks ++ X) P G) p vals = true := by
  obtain ⟨a, cells, rfl, hl, ht⟩ := holds_ints_elim hv
  simp only [holds_ints, load_old h X P G (load_lt hl), hl, ht, beq_self_eq_true]

theorem create_ndarray_layout_ok (B : List (Option Block)) (P : List Bool) (G : List Event)
    (shape : ptr) (vals V : List Int) (dtype : dtype_t) (w sz : Nat) (nd : Option Int)
    (hv : holds_ints (Heap.mk B P G) shape vals = true)
    (h1 : 1 ≤ vals.length) (hlt : vals.length < 2 ^ 31) (hd : get_size dtype = some w)
    (ht : P.headD true = true)
    (hdd : (decide (sz * w < 2 ^ 64) && P.tail.headD true) = true) :
    create_ndarray_layout B.length shape (vals.length : Int) dtype
      (Heap.mk (B ++ [some (Block.struct
          { data := none, shape := some (some (B.length + 1)), stride := none, ndim := nd,
            size := some sz, dtype := none, owns_data := none }),
        some (Block.ints (V.map some))]) P G) =
    Outcome.ret (some B.length)
      (Heap.mk (B ++ [some (Block.struct
          { data := some (some (B.length + 3)), shape := some (some (B.length + 1)),
            stride := some (some (B.length + 2)), ndim := nd, size := some sz, dtype := none,
            owns_data := none }),
        some (Block.ints (V.map some)),
        some (Block.ints ((row_major (wrap_int w) (vals.drop 1)).map some)),
        some (Block.bytes (List.replicate (sz * w) 0))]) P.tail.tail
        (G ++ [Event.alloc (some (B.length + 2)), Event.alloc (some (B.length + 3))])) := by
  have hv2 := holds_ints_grow hv [some (Block.struct
          { data := none, shape := some (some (B.length + 1)), stride := none, ndim := nd,
            size := some sz, dtype := none, owns_data := none }),
        some (Block.ints (V.map some))] P G
  simp only [create_ndarray_layout, hd]
  rw [calculate_strides_ok shape vals w _ hv2 h1 hlt ht]
  simp only [List.append_assoc, List.cons_append, List.nil_append, List.length_append,
    List.length_cons, List.length_nil, zero_add, Nat.reduceAdd, modify_struct_tail_zero,
    read_struct_tail_zero, calloc, Heap.alloc, hdd, if_true, Option.isNone_some, Bool.or_self,
    Bool.false_eq_true, if_false]

theorem create_ndarray_layout_data_fail (B : List (Option Block)) (P : List Bool)
    (G : List Event) (shape : ptr) (vals V : List Int) (dtype : dtype_t) (w sz : Nat)
    (nd : Option Int)
    (hv : holds_ints (Heap.mk B P G) shape vals = true)
    (h1 : 1 ≤ vals.length) (hlt : vals.length < 2 ^ 31) (hd : get_size dtype = some w)
    (ht : P.headD true = true)
    (hdd : (decide (sz * w < 2 ^ 64) && P.tail.headD true) = false) :
    create_ndarray_layout B.length shape (vals.length : Int) dtype
      (Heap.mk (B ++ [some (Block.struct
          { data := none, shape := some (some (B.length + 1)), stride := none, ndim := nd,
            size := some sz, dtype := none, owns_data := none }),
        some (Block.ints (V.map some))]) P G) =
    Outcome.ret none
      (Heap.mk (B ++ [none, none, none]) P.tail.tail
        (G ++ [Event.alloc (some (B.length + 2)), Event.alloc none,
          Event.free (B.length + 1), Event.free (B.length + 2), Event.free B.length])) := by
  have hv2 := holds_ints_grow hv [some (Block.struct
          { data := none, shape := some (some (B.length + 1)), stride := none, ndim := nd,
            size := some sz, dtype := none, owns_data := none }),
        some (Block.ints (V.map some))] P G
  simp only [create_ndarray_layout, hd]
  rw [calculate_strides_ok shape vals w _ hv2 h1 hlt ht]
  simp only [List.append_assoc, List.cons_append, List.nil_append, List.length_append,
    List.length_cons, List.length_nil, zero_add, Nat.reduceAdd, modify_struct_tail_zero,
    read_struct_tail_zero, calloc, Heap.alloc, hdd, if_true, Option.isNone_some, Bool.or_self,
    Bool.false_eq_true, if_false, Option.isNone_none, Bool.true_or, create_ndarray_cleanup,
    Option.isSome_some]
  simp only [free_tail, free_tail_zero, List.get?_cons_succ, List.get?_cons_zero, Option.join,
    Option.some_bind, id_eq, Option.isSome_some, if_true, List.set_cons_succ,
    List.set_cons_zero, List.append_assoc, List.cons_append, List.nil_append]

theorem create_ndarray_layout_stride_fail (B : List (Option Block)) (P : List Bool)
    (G : List Event) (shape : ptr) (ndim : Int) (V : List Int) (dtype : dtype_t) (w sz : Nat)
    (nd : Option Int) (hd : get_size dtype = some w)
    (ht : P.headD true = false)
    (hdd : (decide (sz * w < 2 ^ 64) && P.tail.headD true) = true) :
    create_ndarray_layout B.length shape ndim dtype
      (Heap.mk (B ++ [some (Block.struct
          { data := none, shape := some (some (B.length + 1)), stride := none, ndim := nd,
            size := some sz, dtype := none, owns_data := none }),
        some (Block.ints (V.map some))]) P G) =
    Outcome.ret none
      (Heap.mk (B ++ [none, none, some (Block.bytes (List.replicate (sz * w) 0))]) P.tail.tail
        (G ++ [Event.alloc none, Event.alloc (some (B.length + 2)),
          Event.free (B.length + 1), Event.free B.length])) := by
  simp only [create_ndarray_layout, hd]
  rw [calculate_strides_fail shape ndim w _ ht]
  simp only [List.append_assoc, List.cons_append, List.nil_append, List.length_append,
    List.length_cons, List.length_nil, zero_add, Nat.reduceAdd, modify_struct_tail_zero,
    read_struct_tail_zero, calloc, Heap.alloc, hdd, if_true, Option.isNone_some, Bool.or_self,
    Bool.false_eq_true, if_false, Option.isNone_none, Bool.true_or, Bool.or_true,
    create_ndarray_cleanup, Option.isSome_none]
  simp only [free_tail, free_tail_zero, List.get?_cons_succ, List.get?_cons_zero, Option.join,
    Option.some_bind, id_eq, Option.isSome_some, if_true, List.set_cons_succ,
    List.set_cons_zero, List.append_assoc, List.cons_append, List.nil_append]

theorem create_ndarray_layout_both_fail (B : List (Option Block)) (P : List Bool)
    (G : List Event) (shape : ptr) (ndim : Int) (V : List Int) (dtype : dtype_t) (w sz : Nat)
    (nd : Option Int) (hd : get_size dtype = some w)
    (ht : P.headD true = false)
    (hdd : (decide (sz * w < 2 ^ 64) && P.tail.headD true) = false) :
    create_ndarray_layout B.length shape ndim dtype
      (Heap.mk (B ++ [some (Block.struct
          { data := none, shape := some (some (B.length + 1)), stride := none, ndim := nd,
            size := some sz, dtype := none, owns_data := none }),
        some (Block.ints (V.map some))]) P G) =
    Outcome.ret none
      (Heap.mk (B ++ [none, none]) P.tail.tail
        (G ++ [Event.alloc none, Event.alloc none,
          Event.free (B.length + 1), Event.free B.length])) := by
  simp only [create_ndarray_layout, hd]
  rw [calculate_strides_fail shape ndim w _ ht]
  simp only [List.append_assoc, List.cons_append, List.nil_append, List.length_append,
    List.length_cons, List.length_nil, zero_add, Nat.reduceAdd, modify_struct_tail_zero,
    read_struct_tail_zero, calloc, Heap.alloc, hdd, if_true, Option.isNone_some, Bool.or_self,
    Bool.false_eq_true, if_false, Option.isNone_none, Bool.true_or, Bool.or_true,
    create_ndarray_cleanup, Option.isSome_none]
  simp only [free_tail, free_tail_zero, List.get?_cons_succ, List.get?_cons_zero, Option.join,
    Option.some_bind, id_eq, Option.isSome_some, if_true, List.set_cons_succ,
    List.set_cons_zero, List.append_assoc, List.cons_append, List.nil_append]

/-! ## The five ways `create_ndarray` ends on a valid call -/

theorem create_ndarray_ok (shape : ptr) (vals : List Int) (dtype : dtype_t) (w : Nat) (h : Heap)
    (hv : holds_ints h shape vals = true) (h1 : 1 ≤ vals.length) (hlt : vals.length < 2 ^ 31)
    (hd : get_size dtype = some w)
    (hm : h.plan.headD true = true) (hs : h.plan.tail.headD true = true)
    (ht : h.plan.tail.tail.headD true = true)
    (hdd : (decide (size_after 1 vals * w < 2 ^ 64) && h.plan.tail.tail.tail.headD true) = true) :
    create_ndarray shape (vals.length : Int) dtype h =
      Outcome.ret (some h.blocks.length) (built_heap h vals w) := by
  rw [create_ndarray_start shape vals dtype h hv hlt hm hs,
    create_ndarray_layout_ok h.blocks h.plan.tail.tail _ shape vals vals dtype w
      (size_after 1 vals) _ hv h1 hlt hd ht hdd]
  simp [built_heap, built_struct]

theorem create_ndarray_data_fail (shape : ptr) (vals : List Int) (dtype : dtype_t) (w : Nat)
    (h : Heap)
    (hv : holds_ints h shape vals = true) (h1 : 1 ≤ vals.length) (hlt : vals.length < 2 ^ 31)
    (hd : get_size dtype = some w)
    (hm : h.plan.headD true = true) (hs : h.plan.tail.headD true = true)
    (ht : h.plan.tail.tail.headD true = true)
    (hdd : (decide (size_after 1 vals * w < 2 ^ 64) && h.plan.tail.tail.tail.headD true) = false) :
    create_ndarray shape (vals.length : Int) dtype h =
      Outcome.ret none
        { blocks := h.blocks ++ [none, none, none],
          plan := h.plan.tail.tail.tail.tail,
          log := h.log ++ [Event.alloc (some h.blocks.length),
            Event.alloc (some (h.blocks.length + 1)), Event.alloc (some (h.blocks.length + 2)),
            Event.alloc none, Event.free (h.blocks.length + 1), Event.free (h.blocks.length + 2),
            Event.free h.blocks.length] } := by
  rw [create_ndarray_start shape vals dtype h hv hlt hm hs,
    create_ndarray_layout_data_fail h.blocks h.plan.tail.tail _ shape vals vals dtype w
      (size_after 1 vals) _ hv h1 hlt hd ht hdd]
  simp

theorem create_ndarray_stride_fail (shape : ptr) (vals : List Int) (dtype : dtype_t) (w : Nat)
    (h : Heap)
    (hv : holds_ints h shape vals = true) (hlt : vals.length < 2 ^ 31)
    (hd : get_size dtype = some w)
    (hm : h.plan.headD true = true) (hs : h.plan.tail.headD true = true)
    (ht : h.plan.tail.tail.headD true = false)
    (hdd : (decide (size_after 1 vals * w < 2 ^ 64) && h.plan.tail.tail.tail.headD true) = true) :
    create_ndarray shape (vals.length : Int) dtype h =
      Outcome.ret none
        { blocks := h.blocks ++
            [none, none, some (Block.bytes (List.replicate (size_after 1 vals * w) 0))],
          plan := h.plan.tail.tail.tail.tail,
          log := h.log ++ [Event.alloc (some h.blocks.length),
            Event.alloc (some (h.blocks.length + 1)), Event.alloc none,
            Event.alloc (some (h.blocks.length + 2)), Event.free (h.blocks.length + 1),
            Event.free h.blocks.length] } := by
  rw [create_ndarray_start shape vals dtype h hv hlt hm hs,
    create_ndarray_layout_stride_fail h.blocks h.plan.tail.tail _ shape _ vals dtype w
      (size_after 1 vals) _ hd ht hdd]
  simp

theorem create_ndarray_both_fail (shape : ptr) (vals : List Int) (dtype : dtype_t) (w : Nat)
    (h : Heap)
    (hv : holds_ints h shape vals = true) (hlt : vals.length < 2 ^ 31)
    (hd : get_size dtype = some w)
    (hm : h.plan.headD true = true) (hs : h.plan.tail.headD true = true)
    (ht : h.plan.tail.tail.headD true = false)
    (hdd : (decide (size_after 1 vals * w < 2 ^ 64) && h.plan.tail.tail.tail.headD true) = false) :
    create_ndarray shape (vals.length : Int) dtype h =
      Outcome.ret none
        { blocks := h.blocks ++ [none, none],
          plan := h.plan.tail.tail.tail.tail,
          log := h.log ++ [Event.alloc (some h.blocks.length),
            Event.alloc (some (h.blocks.length + 1)), Event.alloc none, Event.alloc none,
            Event.free (h.blocks.length + 1), Event.free h.blocks.length] } := by
  rw [create_ndarray_start shape vals dtype h hv hlt hm hs,
    create_ndarray_layout_both_fail h.blocks h.plan.tail.tail _ shape _ vals dtype w
      (size_after 1 vals) _ hd ht hdd]
  simp

/-! ## What a returned array tells about the call -/

theorem create_ndarray_cleanup_not_some (arr : Nat) (s : ndarray) (h : Heap) (a : Nat)
    (h' : Heap) : create_ndarray_cleanup arr s h ≠ Outcome.ret (some a) h' := by
  unfold create_ndarray_cleanup
  intro hr
  split at hr
  · split at hr
    · exact Outcome.noConfusion hr
    · split at hr
      · exact Outcome.noConfusion hr
      · split at hr
        · exact Outcome.noConfusion hr
        · simp at hr
  · exact Outcome.noConfusion hr

theorem calculate_strides_some {shape : ptr} {ndim : Int} {w : Nat} {h h' : Heap} {st : Nat}
    (hr : calculate_strides shape ndim w h = Outcome.ret (some st) h') : 1 ≤ ndim := by
  unfold calculate_strides at hr
  split at hr
  · simp at hr
  · split at hr
    · exact Outcome.noConfusion hr
    · omega

theorem create_ndarray_layout_some {arr : Nat} {shape : ptr} {ndim : Int} {dtype : dtype_t}
    {h6 h' : Heap} {a : Nat}
    (hr : create_ndarray_layout arr shape ndim dtype h6 = Outcome.ret (some a) h') :
    ∃ w st h7, get_size dtype = some w ∧
      calculate_strides shape ndim w h6 = Outcome.ret (some st) h7 := by
  unfold create_ndarray_layout at hr
  split at hr
  · exact Outcome.noConfusion hr
  · rename_i w hw
    split at hr
    · exact Outcome.noConfusion hr
    · rename_i stride h7 hcs
      split at hr
      · exact Outcome.noConfusion hr
      · split at hr
        · exact Outcome.noConfusion hr
        · split at hr
          · exact Outcome.noConfusion hr
          · split at hr
            split at hr
            · exact Outcome.noConfusion hr
            · split at hr
              · split at hr
                · exact Outcome.noConfusion hr
                · exact absurd hr (create_ndarray_cleanup_not_some _ _ _ _ _)
              · rename_i hcond
                cases stride with
                | none => simp at hcond
                | some st => exact ⟨w, st, h7, hw, hcs⟩

theorem create_ndarray_success (shape : ptr) (vals : List Int) (dtype : dtype_t) (h h' : Heap)
    (a : Nat) (hv : holds_ints h shape vals = true) (hlt : vals.length < 2 ^ 31)
    (hr : create_ndarray shape (vals.length : Int) dtype h = Outcome.ret (some a) h') :
    1 ≤ vals.length ∧ ∃ w, get_size dtype = some w ∧ a = h.blocks.length ∧
      h' = built_heap h vals w ∧ size_after 1 vals * w < 2 ^ 64 ∧
      h.plan.headD true = true ∧ h.plan.tail.headD true = true ∧
      h.plan.tail.tail.headD true = true ∧ h.plan.tail.tail.tail.headD true = true := by
  cases hm : h.plan.headD true with
  | false => rw [create_ndarray_meta_fail _ _ _ _ hm] at hr; simp at hr
  | true =>
    cases hs : h.plan.tail.headD true with
    | false => rw [create_ndarray_shape_fail _ _ _ _ hm hs] at hr; simp at hr
    | true =>
      have hr2 := hr
      rw [create_ndarray_start shape vals dtype h hv hlt hm hs] at hr2
      obtain ⟨w, st, h7, hd, hcs⟩ := create_ndarray_layout_some hr2
      have h1 : 1 ≤ vals.length := by
        have := calculate_strides_some hcs
        omega
      refine ⟨h1, w, hd, ?_⟩
      cases ht : h.plan.tail.tail.headD true with
      | false =>
        cases hdd : (decide (size_after 1 vals * w < 2 ^ 64) &&
            h.plan.tail.tail.tail.headD true) with
        | false =>
          rw [create_ndarray_both_fail _ _ _ _ _ hv hlt hd hm hs ht hdd] at hr; simp at hr
        | true =>
          rw [create_ndarray_stride_fail _ _ _ _ _ hv hlt hd hm hs ht hdd] at hr; simp at hr
      | true =>
        cases hdd : (decide (size_after 1 vals * w < 2 ^ 64) &&
            h.plan.tail.tail.tail.headD true) with
        | false =>
          rw [create_ndarray_data_fail _ _ _ _ _ hv h1 hlt hd hm hs ht hdd] at hr; simp at hr
        | true =>
          rw [create_ndarray_ok _ _ _ _ _ hv h1 hlt hd hm hs ht hdd] at hr
          simp only [Outcome.ret.injEq, Option.some.injEq] at hr
          simp only [Bool.and_eq_true, decide_eq_true_eq] at hdd
          exact ⟨hr.1.symm, hr.2.symm, hdd.1, rfl, rfl, rfl, hdd.2⟩

/-! ## Reading the array that was built -/

theorem built_read_struct (h : Heap) (vals : List Int) (w : Nat) :
    (built_heap h vals w).read_struct (some h.blocks.length) =
      some (built_struct h.blocks.length vals) := by
  unfold built_heap
  rw [read_struct_tail_zero]

theorem built_load (h : Heap) (vals : List Int) (w : Nat) (i : Nat) :
    (built_heap h vals w).load (h.blocks.length + i) =
      ([some (Block.struct (built_struct h.blocks.length vals)),
        some (Block.ints (vals.map some)),
        some (Block.ints ((row_major (wrap_int w) (vals.drop 1)).map some)),
        some (Block.bytes (List.replicate (size_after 1 vals * w) 0))].get? i).join := by
  unfold built_heap
  rw [load_tail]

theorem built_load_old (h : Heap) (vals : List Int) (w : Nat) {a : Nat}
    (ha : a < h.blocks.length) : (built_heap h vals w).load a = h.load a := by
  unfold built_heap
  exact load_old h _ _ _ ha

theorem join_get_map_some {α : Type} (l : List α) (k : Nat) :
    ((l.map some).get? k).join = l.get? k := by
  simp only [List.get?_eq_getElem?, List.getElem?_map]
  cases l[k]? <;> rfl

theorem built_arr_shape (h : Heap) (vals : List Int) (w : Nat) (k : Nat) :
    arr_shape (built_heap h vals w) (some h.blocks.length) k = vals.get? k := by
  simp only [arr_shape, built_read_struct, built_struct, Heap.read_int, built_load,
    List.get?_cons_succ, List.get?_cons_zero]
  exact join_get_map_some vals k

theorem built_arr_stride (h : Heap) (vals : List Int) (w : Nat) (k : Nat) :
    arr_stride (built_heap h vals w) (some h.blocks.length) k =
      (row_major (wrap_int w) (vals.drop 1)).get? k := by
  simp only [arr_stride, built_read_struct, built_struct, Heap.read_int, built_load,
    List.get?_cons_succ, List.get?_cons_zero]
  exact join_get_map_some _ k

theorem built_arr_size (h : Heap) (vals : List Int) (w : Nat) :
    arr_size (built_heap h vals w) (some h.blocks.length) = some (size_after 1 vals) := by
  simp only [arr_size, built_read_struct, built_struct]

theorem built_arr_data (h : Heap) (vals : List Int) (w : Nat) :
    arr_data (built_heap h vals w) (some h.blocks.length) =
      some (List.replicate (size_after 1 vals * w) 0) := by
  simp only [arr_data, built_read_struct, built_struct, built_load,
    List.get?_cons_succ, List.get?_cons_zero]
  rfl

/-! ## Arithmetic of the two loops -/

theorem row_major_last (w : Int) : ∀ l : List Int, (row_major w l).get? l.length = some w
  | [] => by simp [row_major]
  | _ :: r => by simpa [row_major] using row_major_last w r

theorem row_major_step (w : Int) : ∀ (l : List Int) (i : Nat), i < l.length →
    ∃ s t, l.get? i = some s ∧ (row_major w l).get? (i + 1) = some t ∧
      (row_major w l).get? i = some (wrap_int (s * t))
  | [], i, hi => by simp at hi
  | y :: r, 0, _ => by
    cases hx : row_major w r with
    | nil => exact absurd hx (row_major_ne_nil w r)
    | cons t ts => exact ⟨y, t, by simp, by simp [row_major, hx], by simp [row_major, hx]⟩
  | y :: r, i + 1, hi => by
    obtain ⟨s, t, h1, h2, h3⟩ := row_major_step w r i (by simpa using hi)
    exact ⟨s, t, by simpa using h1, by simpa [row_major] using h2, by simpa [row_major] using h3⟩

theorem wrap_int_of_range {x : Int} (h0 : -2 ^ 31 ≤ x) (h1 : x < 2 ^ 31) : wrap_int x = x := by
  unfold wrap_int
  rw [Int.emod_eq_of_lt (by omega) (by omega)]
  omega

theorem size_after_eq : ∀ (vals : List Int) (sz : Nat), sz < 2 ^ 64 →
    size_after sz vals = (((sz : Int) * vals.prod) % 2 ^ 64).toNat
  | [], sz, h => by
    simp only [size_after, List.prod_nil, mul_one]
    rw [Int.emod_eq_of_lt (by omega) (by exact_mod_cast h)]
    simp
  | v :: r, sz, h => by
    have hw : wrap_size (sz * to_size_t v) < 2 ^ 64 := Nat.mod_lt _ (by norm_num)
    rw [size_after, size_after_eq r _ hw]
    congr 1
    have e1 : ((wrap_size (sz * to_size_t v) : Nat) : Int) = ((sz : Int) * (v % 2 ^ 64)) % 2 ^ 64 := by
      unfold wrap_size to_size_t
      push_cast
      rw [Int.toNat_of_nonneg (Int.emod_nonneg _ (by norm_num))]
    rw [e1, List.prod_cons]
    have m1 : (sz : Int) * (v % 2 ^ 64) % 2 ^ 64 ≡ (sz : Int) * v [ZMOD 2 ^ 64] :=
      (Int.mod_modEq _ _).trans ((Int.ModEq.refl _).mul (Int.mod_modEq v _))
    have m2 := m1.mul_right r.prod
    rw [mul_assoc] at m2
    exact m2

theorem prod_pos_of : ∀ l : List Int, (∀ v ∈ l, 1 ≤ v) → 1 ≤ l.prod
  | [], _ => by simp
  | y :: r, h => by
    have hy : 1 ≤ y := h y (by simp)
    have hr := prod_pos_of r (fun v hv => h v (by simp [hv]))
    rw [List.prod_cons]
    nlinarith

theorem row_major_head_exact (w : Int) (hw : 0 ≤ w) : ∀ l : List Int, (∀ v ∈ l, 1 ≤ v) →
    l.prod * w < 2 ^ 31 → wrap_int w = w → (row_major w l).headD 0 = l.prod * w
  | [], _, _, _ => by simp [row_major]
  | y :: r, h, hf, hww => by
    have hy : 1 ≤ y := h y (by simp)
    have hr : ∀ v ∈ r, 1 ≤ v := fun v hv => h v (by simp [hv])
    have hp := prod_pos_of r hr
    have hnn : 0 ≤ r.prod * w := by positivity
    rw [List.prod_cons] at hf
    have hle : r.prod * w ≤ y * r.prod * w := by nlinarith
    have ih := row_major_head_exact w hw r hr (by omega) hww
    simp only [row_major, List.headD_cons, ih, List.prod_cons]
    rw [wrap_int_of_range] <;> nlinarith
theorem get_size_cases {dtype : dtype_t} {w : Nat} (hd : get_size dtype = some w) :
    w = 4 ∨ w = 8 := by
  unfold get_size at hd
  split_ifs at hd <;> simp at hd <;> omega

theorem failures_append : ∀ (G E : List Event), failures (G ++ E) = failures G + failures E
  | [], E => by simp [failures]
  | Event.alloc none :: G, E => by simp [failures, failures_append G E]; omega
  | Event.alloc (some _) :: G, E => by simp [failures, failures_append G E]
  | Event.free _ :: G, E => by simp [failures, failures_append G E]

theorem requests_append : ∀ (G E : List Event), requests (G ++ E) = requests G + requests E
  | [], E => by simp [requests]
  | Event.alloc _ :: G, E => by simp [requests, requests_append G E]; omega
  | Event.free _ :: G, E => by simp [requests, requests_append G E]

theorem row_major_get_isSome (w : Int) (l : List Int) (i : Nat) (hi : i < l.length + 1) :
    ((row_major w l).get? i).isSome = true := by
  rw [List.get?_eq_getElem?, List.getElem?_eq_getElem (by rw [row_major_length]; exact hi)]
  rfl

theorem write_int_store {h h2 : Heap} {a k : Nat} {v : Int}
    (hw : h.write_int (some a) k v = some h2) : ∃ b, h2 = h.store a b := by
  unfold Heap.write_int at hw
  simp only at hw
  split at hw
  · split at hw
    · simp only [Option.some.injEq] at hw
      exact ⟨_, hw.symm⟩
    · simp at hw
  · simp at hw

theorem read_struct_store_ne {h : Heap} {a c : Nat} (b : Block) (hne : a ≠ c) :
    (h.store a b).read_struct (some c) = h.read_struct (some c) := by
  simp [Heap.read_struct, load_store_ne b hne]

theorem arr_shape_store {h : Heap} {a c sp : Nat} {s : ndarray} (b : Block) (i : Nat)
    (hs : h.read_struct (some c) = some s) (hp : s.shape = some (some sp))
    (h1 : a ≠ c) (h2 : a ≠ sp) :
    arr_shape (h.store a b) (some c) i = arr_shape h (some c) i := by
  simp only [arr_shape, read_struct_store_ne b h1, hs, hp, read_int_store_ne b i h2]

theorem arr_stride_store {h : Heap} {a c st : Nat} {s : ndarray} (b : Block) (i : Nat)
    (hs : h.read_struct (some c) = some s) (hp : s.stride = some (some st))
    (h1 : a ≠ c) (h2 : a ≠ st) :
    arr_stride (h.store a b) (some c) i = arr_stride h (some c) i := by
  simp only [arr_stride, read_struct_store_ne b h1, hs, hp, read_int_store_ne b i h2]

theorem live_from_append_nones : ∀ (B : List (Option Block)) (k n : Nat),
    live_from k (B ++ List.replicate n none) = live_from k B
  | [], k, 0 => rfl
  | [], k, n + 1 => by
    have ih := live_from_append_nones [] (k + 1) n
    simp only [List.nil_append] at ih
    simp only [List.nil_append, List.replicate_succ, live_from, ih]
  | none :: B, k, n => by
    have ih := live_from_append_nones B (k + 1) n
    rw [List.cons_append]
    simp only [live_from]
    exact ih
  | some _ :: B, k, n => by
    have ih := live_from_append_nones B (k + 1) n
    rw [List.cons_append]
    simp only [live_from]
    rw [ih]

theorem load_append_nones (h : Heap) (n : Nat) (P : List Bool) (G : List Event) (x : Nat) :
    (Heap.mk (h.blocks ++ List.replicate n none) P G).load x = h.load x := by
  by_cases hx : x < h.blocks.length
  · exact load_old h _ _ _ hx
  · have e1 : h.load x = none := by
      unfold Heap.load
      rw [List.get?_eq_none.mpr (by omega)]
      rfl
    rw [e1]
    unfold Heap.load
    simp only [List.get?_eq_getElem?]
    rw [List.getElem?_append_right (by omega)]
    rw [List.getElem?_replicate]
    split <;> rfl

theorem free_ndarray_built (h : Heap) (vals : List Int) (w : Nat) :
    free_ndarray (some h.blocks.length) (built_heap h vals w) =
      Outcome.ret ()
        { blocks := h.blocks ++ List.replicate 4 none,
          plan := h.plan.tail.tail.tail.tail,
          log := h.log ++ [Event.alloc (some h.blocks.length),
            Event.alloc (some (h.blocks.length + 1)), Event.alloc (some (h.blocks.length + 2)),
            Event.alloc (some (h.blocks.length + 3)), Event.free (h.blocks.length + 3),
            Event.free (h.blocks.length + 1), Event.free (h.blocks.length + 2),
            Event.free h.blocks.length] } := by
  simp only [free_ndarray, built_read_struct, built_struct]
  simp only [built_heap, built_struct, free_tail, free_tail_zero, List.get?_cons_succ,
    List.get?_cons_zero, Option.join, Option.some_bind, id_eq, Option.isSome_some, if_true,
    List.set_cons_succ, List.set_cons_zero, List.append_assoc, List.cons_append,
    List.nil_append, List.replicate]

/-! ## C1: the strides of a returned array -/

/-- C1 (counterexample): for the shape [1, 32768, 16384] with 32-bit float
elements (a buffer of 2 GiB) `create_ndarray` returns an array with
`shape[1] = 32768`, `stride[1] = 65536` and `stride[0] = -2147483648`, while
`shape[1] * stride[1] = 32768 * 65536 = 2147483648`: the product does not fit
the 32-bit `int` of the stride array. -/
theorem C1_counterexample :
    (create_ndarray (some 0) 3 DTYPE_FLOAT32 (caller_heap [1, 32768, 16384] [])).value
        = some (some 1) ∧
      arr_shape (create_ndarray (some 0) 3 DTYPE_FLOAT32
        (caller_heap [1, 32768, 16384] [])).heap (some 1) 1 = some 32768 ∧
      arr_stride (create_ndarray (some 0) 3 DTYPE_FLOAT32
        (caller_heap [1, 32768, 16384] [])).heap (some 1) 1 = some 65536 ∧
      arr_stride (create_ndarray (some 0) 3 DTYPE_FLOAT32
        (caller_heap [1, 32768, 16384] [])).heap (some 1) 0 = some (-2147483648) ∧
      (-2147483648 : Int) ≠ 32768 * 65536 := by
  have e := create_ndarray_ok (some 0) [1, 32768, 16384] DTYPE_FLOAT32 4
    (caller_heap [1, 32768, 16384] []) (by decide) (by decide) (by decide) (by decide)
    rfl rfl rfl (by decide)
  have e2 : create_ndarray (some 0) 3 DTYPE_FLOAT32 (caller_heap [1, 32768, 16384] []) =
      Outcome.ret (some 1)
        (built_heap (caller_heap [1, 32768, 16384] []) [1, 32768, 16384] 4) := e
  rw [e2]
  refine ⟨rfl, ?_, ?_, ?_, by decide⟩
  · exact built_arr_shape (caller_heap [1, 32768, 16384] []) [1, 32768, 16384] 4 1
  · exact (built_arr_stride (caller_heap [1, 32768, 16384] []) [1, 32768, 16384] 4 1).trans
      (by decide)
  · exact (built_arr_stride (caller_heap [1, 32768, 16384] []) [1, 32768, 16384] 4 0).trans
      (by decide)

/-- C1 (amended): the array returned by `create_ndarray` has
`stride[ndim-1] = element_width(dtype)`, and for every `i` from `ndim-2` down
to `0` the stride `stride[i]` is the 32-bit `int` product of `shape[i+1]` and
`stride[i+1]`, read from the array's own shape: it is exactly
`shape[i+1] * stride[i+1]` whenever that product fits the 32-bit `int`. -/
theorem C1_stride_row_major (shape : ptr) (vals : List Int) (dtype : dtype_t) (h h' : Heap)
    (a : Nat) (hv : holds_ints h shape vals = true) (hlt : vals.length < 2 ^ 31)
    (hr : create_ndarray shape (vals.length : Int) dtype h = Outcome.ret (some a) h') :
    ∃ w, get_size dtype = some w ∧
      arr_stride h' (some a) (vals.length - 1) = some (w : Int) ∧
      ∀ i, i + 1 < vals.length →
        ∃ s t, arr_shape h' (some a) (i + 1) = some s ∧
          arr_stride h' (some a) (i + 1) = some t ∧
          arr_stride h' (some a) i = some (wrap_int (s * t)) ∧
          (-2 ^ 31 ≤ s * t → s * t < 2 ^ 31 → arr_stride h' (some a) i = some (s * t)) := by
  obtain ⟨h1, w, hd, rfl, rfl, -⟩ := create_ndarray_success shape vals dtype h h' a hv hlt hr
  have hw : wrap_int (w : Int) = (w : Int) := by
    apply wrap_int_of_range <;> rcases get_size_cases hd with e | e <;> subst e <;> omega
  have hlen : (vals.drop 1).length = vals.length - 1 := by simp
  refine ⟨w, hd, ?_, ?_⟩
  · rw [built_arr_stride, ← hlen, row_major_last, hw]
  · intro i hi
    obtain ⟨s, t, e1, e2, e3⟩ := row_major_step (wrap_int w) (vals.drop 1) i (by omega)
    have es : vals.get? (i + 1) = some s := by
      rw [← e1]
      simp only [List.get?_eq_getElem?, List.getElem?_drop, Nat.add_comm 1 i]
    refine ⟨s, t, ?_, ?_, ?_, ?_⟩
    · rw [built_arr_shape, es]
    · rw [built_arr_stride, e2]
    · rw [built_arr_stride, e3]
    · intro hlo hhi
      rw [built_arr_stride, e3, wrap_int_of_range hlo hhi]

/-- C1 (witness): the shape [2, 3, 4] with 32-bit integer elements. -/
theorem C1_stride_row_major_witness :
    ∃ w, get_size DTYPE_INT32 = some w ∧
      arr_stride (create_ndarray (some 0) 3 DTYPE_INT32 (caller_heap [2, 3, 4] [])).heap
        (some 1) (3 - 1) = some (w : Int) ∧
      ∀ i, i + 1 < 3 →
        ∃ s t, arr_shape (create_ndarray (some 0) 3 DTYPE_INT32
            (caller_heap [2, 3, 4] [])).heap (some 1) (i + 1) = some s ∧
          arr_stride (create_ndarray (some 0) 3 DTYPE_INT32
            (caller_heap [2, 3, 4] [])).heap (some 1) (i + 1) = some t ∧
          arr_stride (create_ndarray (some 0) 3 DTYPE_INT32
            (caller_heap [2, 3, 4] [])).heap (some 1) i = some (wrap_int (s * t)) ∧
          (-2 ^ 31 ≤ s * t → s * t < 2 ^ 31 →
            arr_stride (create_ndarray (some 0) 3 DTYPE_INT32
              (caller_heap [2, 3, 4] [])).heap (some 1) i = some (s * t)) :=
  C1_stride_row_major (some 0) [2, 3, 4] DTYPE_INT32 (caller_heap [2, 3, 4] [])
    (create_ndarray (some 0) 3 DTYPE_INT32 (caller_heap [2, 3, 4] [])).heap 1
    (by decide) (by decide) (by decide)

/-! ## C2: the first stride times the first extent -/

theorem calculate_strides_total (shape : ptr) (vals : List Int) (w : Nat) (h : Heap)
    (hv : holds_ints h shape vals = true) (h1 : 1 ≤ vals.length) (hlt : vals.length < 2 ^ 31) :
    (h.plan.headD true = true ∧
      calculate_strides shape (vals.length : Int) w h =
        Outcome.ret (some h.blocks.length)
          { blocks := h.blocks ++
              [some (Block.ints ((row_major (wrap_int w) (vals.drop 1)).map some))],
            plan := h.plan.tail,
            log := h.log ++ [Event.alloc (some h.blocks.length)] }) ∨
    (h.plan.headD true = false ∧
      calculate_strides shape (vals.length : Int) w h =
        Outcome.ret none { h with plan := h.plan.tail, log := h.log ++ [Event.alloc none] }) := by
  cases hp : h.plan.headD true with
  | true => exact Or.inl ⟨rfl, calculate_strides_ok shape vals w h hv h1 hlt hp⟩
  | false => exact Or.inr ⟨rfl, calculate_strides_fail shape _ w h hp⟩

theorem first_stride_exact (vals : List Int) (w : Nat) (h1 : 1 ≤ vals.length)
    (hpos : ∀ v ∈ vals, 1 ≤ v) (hfit : vals.prod * (w : Int) < 2 ^ 31) :
    ∃ s t, vals.get? 0 = some s ∧ (row_major (wrap_int w) (vals.drop 1)).get? 0 = some t ∧
      t * s = vals.prod * (w : Int) := by
  cases vals with
  | nil => simp at h1
  | cons s r =>
    have hs : 1 ≤ s := hpos s (by simp)
    have hr : ∀ v ∈ r, 1 ≤ v := fun v hv => hpos v (by simp [hv])
    have hp := prod_pos_of r hr
    rw [List.prod_cons] at hfit
    have hw0 : (0 : Int) ≤ w := Int.natCast_nonneg w
    have hrw : r.prod * (w : Int) < 2 ^ 31 := by nlinarith
    have hww : wrap_int (w : Int) = (w : Int) := by
      apply wrap_int_of_range <;> nlinarith
    have hh := row_major_head_exact (w : Int) hw0 r hr hrw hww
    rw [hww]
    cases hx : row_major (w : Int) r with
    | nil => exact absurd hx (row_major_ne_nil _ r)
    | cons t ts =>
      rw [hx] at hh
      simp only [List.headD_cons] at hh
      refine ⟨s, t, by simp, by simp [hx], ?_⟩
      rw [hh, List.prod_cons]; ring

/-- C2 (counterexample): for the shape [2, 3, 4] with 32-bit integer elements
the returned array has `stride[0] = 48` and `shape[0] = 2`, so
`stride[0] * shape[0] = 96`, and its data buffer is 96 bytes long: the total
byte length is 96, not 192. -/
theorem C2_counterexample :
    (create_ndarray (some 0) 3 DTYPE_INT32 (caller_heap [2, 3, 4] [])).value
        = some (some 1) ∧
      arr_stride (create_ndarray (some 0) 3 DTYPE_INT32 (caller_heap [2, 3, 4] [])).heap
        (some 1) 0 = some 48 ∧
      arr_shape (create_ndarray (some 0) 3 DTYPE_INT32 (caller_heap [2, 3, 4] [])).heap
        (some 1) 0 = some 2 ∧
      (arr_data (create_ndarray (some 0) 3 DTYPE_INT32 (caller_heap [2, 3, 4] [])).heap
        (some 1)).map List.length = some 96 ∧
      (48 : Int) * 2 = 96 ∧ (96 : Int) ≠ 192 := by
  decide

/-- C2 (amended): for a shape with `ndim >= 1` and all extents `>= 1` whose total byte
size `product(shape) * element_width` fits the `int` of the stride array,
`calculate_strides` returns (a stride array when its allocation is granted,
`NULL` otherwise) and the strides it computed satisfy
`stride[0] * shape[0] = product(shape) * element_width`; this is the byte
length of the data buffer of the array that `create_ndarray` returns. -/
theorem C2_first_stride_times_extent (shape : ptr) (vals : List Int) (w : Nat) (h : Heap)
    (hv : holds_ints h shape vals = true) (h1 : 1 ≤ vals.length) (hlt : vals.length < 2 ^ 31)
    (hpos : ∀ v ∈ vals, 1 ≤ v) (hfit : vals.prod * (w : Int) < 2 ^ 31) :
    (∃ p h', calculate_strides shape (vals.length : Int) w h = Outcome.ret p h' ∧
      (p = none ↔ h.plan.headD true = false) ∧
      ∀ st, p = some st →
        ∃ t s, h'.read_int (some st) 0 = some t ∧ h'.read_int shape 0 = some s ∧
          t * s = vals.prod * (w : Int)) ∧
    (∀ dtype a h3, get_size dtype = some w →
      create_ndarray shape (vals.length : Int) dtype h = Outcome.ret (some a) h3 →
      ∃ bytes t s, arr_data h3 (some a) = some bytes ∧ arr_stride h3 (some a) 0 = some t ∧
        arr_shape h3 (some a) 0 = some s ∧ t * s = (bytes.length : Int) ∧
        (bytes.length : Int) = vals.prod * (w : Int)) := by
  obtain ⟨s, t, es, et, eq⟩ := first_stride_exact vals w h1 hpos hfit
  constructor
  · rcases calculate_strides_total shape vals w h hv h1 hlt with ⟨hp, e⟩ | ⟨hp, e⟩
    · refine ⟨_, _, e, by rw [hp]; simp, ?_⟩
      intro st hst
      simp only [Option.some.injEq] at hst
      subst hst
      refine ⟨t, s, ?_, ?_, eq⟩
      · simp only [Heap.read_int, load_tail_zero, List.get?_cons_zero]
        show ((List.map some (row_major (wrap_int w) (vals.drop 1))).get? 0).join = some t
        rw [join_get_map_some, et]
      · exact read_int_append _ _ _ (holds_ints_read hv 0 s es)
    · refine ⟨_, _, e, by rw [hp]; simp, ?_⟩
      intro st hst
      simp at hst
  · intro dtype a h3 hd hr
    obtain ⟨-, w2, hd2, rfl, rfl, -⟩ := create_ndarray_success shape vals dtype h h3 a hv hlt hr
    rw [hd] at hd2
    simp only [Option.some.injEq] at hd2
    subst hd2
    have hp := prod_pos_of vals hpos
    have hw4 : (4 : Int) ≤ w := by
      rcases get_size_cases hd with e | e <;> subst e <;> norm_num
    have hsz : ((size_after 1 vals : Nat) : Int) = vals.prod := by
      rw [size_after_eq vals 1 (by norm_num)]
      simp only [Nat.cast_one, one_mul]
      rw [Int.emod_eq_of_lt (by omega) (by nlinarith)]
      exact Int.toNat_of_nonneg (by omega)
    refine ⟨_, t, s, built_arr_data h vals w, ?_, ?_, ?_, ?_⟩
    · rw [built_arr_stride, et]
    · rw [built_arr_shape, es]
    · rw [eq, List.length_replicate]; push_cast; rw [hsz]
    · rw [List.length_replicate]; push_cast; rw [hsz]

/-- C2 (witness): the shape [2, 3, 4] with 4-byte elements, 96 bytes in total. -/
theorem C2_first_stride_times_extent_witness :
    (∃ p h', calculate_strides (some 0) (([2, 3, 4] : List Int).length : Int) 4
        (caller_heap [2, 3, 4] []) = Outcome.ret p h' ∧
      (p = none ↔ (caller_heap [2, 3, 4] []).plan.headD true = false) ∧
      ∀ st, p = some st →
        ∃ t s, h'.read_int (some st) 0 = some t ∧ h'.read_int (some 0) 0 = some s ∧
          t * s = ([2, 3, 4] : List Int).prod * ((4 : Nat) : Int)) ∧
    (∀ dtype a h3, get_size dtype = some 4 →
      create_ndarray (some 0) (([2, 3, 4] : List Int).length : Int) dtype
        (caller_heap [2, 3, 4] []) = Outcome.ret (some a) h3 →
      ∃ bytes t s, arr_data h3 (some a) = some bytes ∧ arr_stride h3 (some a) 0 = some t ∧
        arr_shape h3 (some a) 0 = some s ∧ t * s = (bytes.length : Int) ∧
        (bytes.length : Int) = ([2, 3, 4] : List Int).prod * ((4 : Nat) : Int)) :=
  C2_first_stride_times_extent (some 0) [2, 3, 4] 4 (caller_heap [2, 3, 4] [])
    (by decide) (by decide) (by decide) (by decide) (by decide)

/-! ## C3: a failed allocation inside `create_ndarray` -/

/-- C3 (the code at the failing input): for the shape [2, 3] with 32-bit float
elements, when the allocation of the stride array fails and the others are
granted, `create_ndarray` returns `NULL` and releases the shape copy and the
struct, but the 24-byte data buffer it allocated (address 3) stays allocated:
one allocation is outstanding that was not before the call. -/
theorem C3_stride_failure_leaks_data :
    create_ndarray (some 0) 2 DTYPE_FLOAT32 (caller_heap [2, 3] [true, true, false]) =
      Outcome.ret none
        { blocks := [some (Block.ints [some 2, some 3]), none, none,
            some (Block.bytes (List.replicate 24 0))],
          plan := [],
          log := [Event.alloc (some 1), Event.alloc (some 2), Event.alloc none,
            Event.alloc (some 3), Event.free 2, Event.free 1] } ∧
      (caller_heap [2, 3] [true, true, false]).live = [0] ∧
      (create_ndarray (some 0) 2 DTYPE_FLOAT32
        (caller_heap [2, 3] [true, true, false])).heap.live = [0, 3] := by
  decide

/-! ## C4: `NULL` exactly when an allocation failed -/

/-- C4: for a valid call (`ndim >= 1`, a dtype of the closed set)
`create_ndarray` returns, and it returns `NULL` if and only if at least one of
the allocation requests it made (at most four) failed; an array it returns has
`shape`, `stride` and `data` all non-`NULL`, the `ndim` cells of `shape` and of
`stride` all written and the data buffer allocated. -/
theorem C4_null_iff_allocation_failed (shape : ptr) (vals : List Int) (dtype : dtype_t)
    (w : Nat) (h : Heap)
    (hv : holds_ints h shape vals = true) (h1 : 1 ≤ vals.length) (hlt : vals.length < 2 ^ 31)
    (hd : get_size dtype = some w) :
    ∃ p h', create_ndarray shape (vals.length : Int) dtype h = Outcome.ret p h' ∧
      (p = none ↔ failures h.log < failures h'.log) ∧
      requests h'.log ≤ requests h.log + 4 ∧
      ∀ a, p = some a →
        ∃ s sp st dp, h'.read_struct (some a) = some s ∧ s.shape = some (some sp) ∧
          s.stride = some (some st) ∧ s.data = some (some dp) ∧
          (∀ i, i < vals.length →
            (arr_shape h' (some a) i).isSome = true ∧
            (arr_stride h' (some a) i).isSome = true) ∧
          (arr_data h' (some a)).isSome = true := by
  cases hm : h.plan.headD true with
  | false =>
    refine ⟨_, _, create_ndarray_meta_fail _ _ _ _ hm, ?_, ?_, ?_⟩
    · simp [failures_append, failures]
    · simp [requests_append, requests]
    · intro a ha; simp at ha
  | true =>
    cases hs : h.plan.tail.headD true with
    | false =>
      refine ⟨_, _, create_ndarray_shape_fail _ _ _ _ hm hs, ?_, ?_, ?_⟩
      · simp [failures_append, failures]
      · simp [requests_append, requests]
      · intro a ha; simp at ha
    | true =>
      cases ht : h.plan.tail.tail.headD true with
      | false =>
        cases hdd : (decide (size_after 1 vals * w < 2 ^ 64) &&
            h.plan.tail.tail.tail.headD true) with
        | false =>
          refine ⟨_, _, create_ndarray_both_fail _ _ _ _ _ hv hlt hd hm hs ht hdd, ?_, ?_, ?_⟩
          · simp [failures_append, failures]
          · simp [requests_append, requests]
          · intro a ha; simp at ha
        | true =>
          refine ⟨_, _, create_ndarray_stride_fail _ _ _ _ _ hv hlt hd hm hs ht hdd, ?_, ?_, ?_⟩
          · simp [failures_append, failures]
          · simp [requests_append, requests]
          · intro a ha; simp at ha
      | true =>
        cases hdd : (decide (size_after 1 vals * w < 2 ^ 64) &&
            h.plan.tail.tail.tail.headD true) with
        | false =>
          refine ⟨_, _, create_ndarray_data_fail _ _ _ _ _ hv h1 hlt hd hm hs ht hdd, ?_, ?_, ?_⟩
          · simp [failures_append, failures]
          · simp [requests_append, requests]
          · intro a ha; simp at ha
        | true =>
          refine ⟨_, _, create_ndarray_ok _ _ _ _ _ hv h1 hlt hd hm hs ht hdd, ?_, ?_, ?_⟩
          · simp [built_heap, failures_append, failures]
          · simp [built_heap, requests_append, requests]
          · intro a ha
            simp only [Option.some.injEq] at ha
            subst ha
            refine ⟨_, _, _, _, built_read_struct h vals w, rfl, rfl, rfl, ?_, ?_⟩
            · intro i hi
              rw [built_arr_shape, built_arr_stride]
              constructor
              · rw [List.get?_eq_getElem?, List.getElem?_eq_getElem hi]; rfl
              · exact row_major_get_isSome _ _ _ (by simp; omega)
            · rw [built_arr_data]; rfl

/-- C4 (witness): the shape [2, 3] with 32-bit float elements, every
allocation granted. -/
theorem C4_null_iff_allocation_failed_witness :
    ∃ p h', create_ndarray (some 0) (([2, 3] : List Int).length : Int) DTYPE_FLOAT32
        (caller_heap [2, 3] []) = Outcome.ret p h' ∧
      (p = none ↔ failures (caller_heap [2, 3] []).log < failures h'.log) ∧
      requests h'.log ≤ requests (caller_heap [2, 3] []).log + 4 ∧
      ∀ a, p = some a →
        ∃ s sp st dp, h'.read_struct (some a) = some s ∧ s.shape = some (some sp) ∧
          s.stride = some (some st) ∧ s.data = some (some dp) ∧
          (∀ i, i < ([2, 3] : List Int).length →
            (arr_shape h' (some a) i).isSome = true ∧
            (arr_stride h' (some a) i).isSome = true) ∧
          (arr_data h' (some a)).isSome = true :=
  C4_null_iff_allocation_failed (some 0) [2, 3] DTYPE_FLOAT32 4 (caller_heap [2, 3] [])
    (by decide) (by decide) (by decide) (by decide)

/-! ## C5: the `size` field -/

/-- C5: the `size` field of a returned array is the product of all shape
entries computed in `size_t`, that is reduced modulo `2 ^ 64`; it is exactly
the mathematical product whenever that product is representable in `size_t`. -/
theorem C5_size_is_product (shape : ptr) (vals : List Int) (dtype : dtype_t) (h h' : Heap)
    (a : Nat) (hv : holds_ints h shape vals = true) (hlt : vals.length < 2 ^ 31)
    (hr : create_ndarray shape (vals.length : Int) dtype h = Outcome.ret (some a) h') :
    arr_size h' (some a) = some (vals.prod % 2 ^ 64).toNat ∧
      (0 ≤ vals.prod → vals.prod < 2 ^ 64 →
        ∃ sz, arr_size h' (some a) = some sz ∧ (sz : Int) = vals.prod) := by
  obtain ⟨-, w, -, rfl, rfl, -⟩ := create_ndarray_success shape vals dtype h h' a hv hlt hr
  have e : size_after 1 vals = (vals.prod % 2 ^ 64).toNat := by
    rw [size_after_eq vals 1 (by norm_num)]
    simp
  refine ⟨by rw [built_arr_size, e], ?_⟩
  intro h0 hlt2
  refine ⟨_, built_arr_size h vals w, ?_⟩
  rw [e, Int.emod_eq_of_lt h0 hlt2]
  exact Int.toNat_of_nonneg h0

/-- C5 (witness): the shape [2, 3] has size 6. -/
theorem C5_size_is_product_witness :
    arr_size (create_ndarray (some 0) 2 DTYPE_FLOAT32 (caller_heap [2, 3] [])).heap (some 1)
        = some (([2, 3] : List Int).prod % 2 ^ 64).toNat ∧
      (0 ≤ ([2, 3] : List Int).prod → ([2, 3] : List Int).prod < 2 ^ 64 →
        ∃ sz, arr_size (create_ndarray (some 0) 2 DTYPE_FLOAT32
          (caller_heap [2, 3] [])).heap (some 1) = some sz ∧
          (sz : Int) = ([2, 3] : List Int).prod) :=
  C5_size_is_product (some 0) [2, 3] DTYPE_FLOAT32 (caller_heap [2, 3] [])
    (create_ndarray (some 0) 2 DTYPE_FLOAT32 (caller_heap [2, 3] [])).heap 1
    (by decide) (by decide) (by decide)

/-! ## C6: the data buffer -/

/-- C6: the data buffer of a returned array has byte length exactly
`size * element_width(dtype)`, with `size` the array's `size` field, and every
byte of it is zero. -/
theorem C6_data_zeroed (shape : ptr) (vals : List Int) (dtype : dtype_t) (h h' : Heap)
    (a : Nat) (hv : holds_ints h shape vals = true) (hlt : vals.length < 2 ^ 31)
    (hr : create_ndarray shape (vals.length : Int) dtype h = Outcome.ret (some a) h') :
    ∃ w sz bytes, get_size dtype = some w ∧ arr_size h' (some a) = some sz ∧
      arr_data h' (some a) = some bytes ∧ bytes.length = sz * w ∧ ∀ b ∈ bytes, b = 0 := by
  obtain ⟨-, w, hd, rfl, rfl, -⟩ := create_ndarray_success shape vals dtype h h' a hv hlt hr
  refine ⟨w, _, _, hd, built_arr_size h vals w, built_arr_data h vals w, by simp, ?_⟩
  intro b hb
  exact List.eq_of_mem_replicate hb

/-- C6 (witness): the shape [2, 3] with 32-bit float elements, 24 zero bytes. -/
theorem C6_data_zeroed_witness :
    ∃ w sz bytes, get_size DTYPE_FLOAT32 = some w ∧
      arr_size (create_ndarray (some 0) 2 DTYPE_FLOAT32 (caller_heap [2, 3] [])).heap (some 1)
        = some sz ∧
      arr_data (create_ndarray (some 0) 2 DTYPE_FLOAT32 (caller_heap [2, 3] [])).heap (some 1)
        = some bytes ∧
      bytes.length = sz * w ∧ ∀ b ∈ bytes, b = 0 :=
  C6_data_zeroed (some 0) [2, 3] DTYPE_FLOAT32 (caller_heap [2, 3] [])
    (create_ndarray (some 0) 2 DTYPE_FLOAT32 (caller_heap [2, 3] [])).heap 1
    (by decide) (by decide) (by decide)

/-! ## C7: the shape of the array is a private copy -/

/-- C7: the shape of a returned array lives in a block of its own, distinct
from the caller's sequence, and equals the caller's sequence element by
element; `create_ndarray` and `calculate_strides` leave the caller's sequence
unchanged; a later write to the caller's sequence changes neither the array's
shape nor its stride. -/
theorem C7_shape_private_copy (shape : ptr) (vals : List Int) (dtype : dtype_t) (h h' : Heap)
    (a : Nat) (hv : holds_ints h shape vals = true) (hlt : vals.length < 2 ^ 31)
    (hr : create_ndarray shape (vals.length : Int) dtype h = Outcome.ret (some a) h') :
    ∃ sh s sp st, shape = some sh ∧ h'.read_struct (some a) = some s ∧
      s.shape = some (some sp) ∧ s.stride = some (some st) ∧
      sp ≠ sh ∧ st ≠ sh ∧ a ≠ sh ∧
      (∀ i, arr_shape h' (some a) i = vals.get? i) ∧
      (∀ i, i < vals.length → arr_shape h' (some a) i = h.read_int shape i) ∧
      h'.load sh = h.load sh ∧
      (∀ w p h2, calculate_strides shape (vals.length : Int) w h = Outcome.ret p h2 →
        h2.load sh = h.load sh) ∧
      (∀ k v h'', h'.write_int shape k v = some h'' →
        (∀ i, arr_shape h'' (some a) i = arr_shape h' (some a) i) ∧
        (∀ i, arr_stride h'' (some a) i = arr_stride h' (some a) i)) := by
  obtain ⟨h1, w, -, rfl, rfl, -⟩ := create_ndarray_success shape vals dtype h h' a hv hlt hr
  obtain ⟨sh, cells, rfl, hl, -⟩ := holds_ints_elim hv
  have hsh := load_lt hl
  refine ⟨sh, _, _, _, rfl, built_read_struct h vals w, rfl, rfl, by omega, by omega,
    by omega, fun i => built_arr_shape h vals w i, ?_, built_load_old h vals w hsh, ?_, ?_⟩
  · intro i hi
    rw [built_arr_shape]
    obtain ⟨v, hv2⟩ : ∃ v, vals.get? i = some v := by
      rw [List.get?_eq_getElem?, List.getElem?_eq_getElem hi]; exact ⟨_, rfl⟩
    rw [hv2, holds_ints_read hv i v hv2]
  · intro w2 p h2 hcs
    rcases calculate_strides_total (some sh) vals w2 h hv h1 hlt with ⟨-, e⟩ | ⟨-, e⟩
    · rw [e] at hcs
      simp only [Outcome.ret.injEq] at hcs
      rw [← hcs.2]
      exact load_old h _ _ _ hsh
    · rw [e] at hcs
      simp only [Outcome.ret.injEq] at hcs
      rw [← hcs.2]
      rfl
  · intro k v h'' hw
    obtain ⟨b, rfl⟩ := write_int_store hw
    constructor
    · intro i
      exact arr_shape_store b i (built_read_struct h vals w) rfl (by omega) (by omega)
    · intro i
      exact arr_stride_store b i (built_read_struct h vals w) rfl (by omega) (by omega)

/-- C7 (witness): the shape [2, 3] with 32-bit float elements. -/
theorem C7_shape_private_copy_witness :
    ∃ sh s sp st, (some 0 : ptr) = some sh ∧
      (create_ndarray (some 0) 2 DTYPE_FLOAT32 (caller_heap [2, 3] [])).heap.read_struct
        (some 1) = some s ∧
      s.shape = some (some sp) ∧ s.stride = some (some st) ∧
      sp ≠ sh ∧ st ≠ sh ∧ 1 ≠ sh ∧
      (∀ i, arr_shape (create_ndarray (some 0) 2 DTYPE_FLOAT32 (caller_heap [2, 3] [])).heap
        (some 1) i = ([2, 3] : List Int).get? i) ∧
      (∀ i, i < ([2, 3] : List Int).length →
        arr_shape (create_ndarray (some 0) 2 DTYPE_FLOAT32 (caller_heap [2, 3] [])).heap
          (some 1) i = (caller_heap [2, 3] []).read_int (some 0) i) ∧
      (create_ndarray (some 0) 2 DTYPE_FLOAT32 (caller_heap [2, 3] [])).heap.load sh =
        (caller_heap [2, 3] []).load sh ∧
      (∀ w p h2, calculate_strides (some 0) (([2, 3] : List Int).length : Int) w
          (caller_heap [2, 3] []) = Outcome.ret p h2 →
        h2.load sh = (caller_heap [2, 3] []).load sh) ∧
      (∀ k v h'',
        (create_ndarray (some 0) 2 DTYPE_FLOAT32 (caller_heap [2, 3] [])).heap.write_int
          (some 0) k v = some h'' →
        (∀ i, arr_shape h'' (some 1) i =
          arr_shape (create_ndarray (some 0) 2 DTYPE_FLOAT32 (caller_heap [2, 3] [])).heap
            (some 1) i) ∧
        (∀ i, arr_stride h'' (some 1) i =
          arr_stride (create_ndarray (some 0) 2 DTYPE_FLOAT32 (caller_heap [2, 3] [])).heap
            (some 1) i)) :=
  C7_shape_private_copy (some 0) [2, 3] DTYPE_FLOAT32 (caller_heap [2, 3] [])
    (create_ndarray (some 0) 2 DTYPE_FLOAT32 (caller_heap [2, 3] [])).heap 1
    (by decide) (by decide) (by decide)

/-! ## C8: construct, then destroy -/

/-- C8: `free_ndarray` applied to a returned array runs without any invalid
release and releases exactly the four blocks the construction allocated, each
once, in the order data buffer, shape, stride, struct; afterwards every
address holds what it held before the construction and the outstanding
allocations are those from before the construction. -/
theorem C8_create_then_free (shape : ptr) (vals : List Int) (dtype : dtype_t) (h h' : Heap)
    (a : Nat) (hv : holds_ints h shape vals = true) (hlt : vals.length < 2 ^ 31)
    (hr : create_ndarray shape (vals.length : Int) dtype h = Outcome.ret (some a) h') :
    ∃ h'' s, free_ndarray (some a) h' = Outcome.ret () h'' ∧
      h'.read_struct (some a) = some s ∧
      s.shape = some (some (a + 1)) ∧ s.stride = some (some (a + 2)) ∧
      s.data = some (some (a + 3)) ∧
      h'.log = h.log ++ [Event.alloc (some a), Event.alloc (some (a + 1)),
        Event.alloc (some (a + 2)), Event.alloc (some (a + 3))] ∧
      h''.log = h'.log ++ [Event.free (a + 3), Event.free (a + 1), Event.free (a + 2),
        Event.free a] ∧
      h''.live = h.live ∧
      (∀ x, h''.load x = h.load x) := by
  obtain ⟨-, w, -, rfl, rfl, -⟩ := create_ndarray_success shape vals dtype h h' a hv hlt hr
  refine ⟨_, _, free_ndarray_built h vals w, built_read_struct h vals w, rfl, rfl, rfl, rfl,
    ?_, ?_, ?_⟩
  · simp [built_heap]
  · exact live_from_append_nones h.blocks 0 4
  · intro x
    exact load_append_nones h 4 _ _ x

/-- C8 (witness): the shape [2, 3] with 32-bit float elements. -/
theorem C8_create_then_free_witness :
    ∃ h'' s,
      free_ndarray (some 1)
        (create_ndarray (some 0) 2 DTYPE_FLOAT32 (caller_heap [2, 3] [])).heap =
          Outcome.ret () h'' ∧
      (create_ndarray (some 0) 2 DTYPE_FLOAT32 (caller_heap [2, 3] [])).heap.read_struct
        (some 1) = some s ∧
      s.shape = some (some (1 + 1)) ∧ s.stride = some (some (1 + 2)) ∧
      s.data = some (some (1 + 3)) ∧
      (create_ndarray (some 0) 2 DTYPE_FLOAT32 (caller_heap [2, 3] [])).heap.log =
        (caller_heap [2, 3] []).log ++ [Event.alloc (some 1), Event.alloc (some (1 + 1)),
          Event.alloc (some (1 + 2)), Event.alloc (some (1 + 3))] ∧
      h''.log = (create_ndarray (some 0) 2 DTYPE_FLOAT32 (caller_heap [2, 3] [])).heap.log ++
        [Event.free (1 + 3), Event.free (1 + 1), Event.free (1 + 2), Event.free 1] ∧
      h''.live = (caller_heap [2, 3] []).live ∧
      (∀ x, h''.load x = (caller_heap [2, 3] []).load x) :=
  C8_create_then_free (some 0) [2, 3] DTYPE_FLOAT32 (caller_heap [2, 3] [])
    (create_ndarray (some 0) 2 DTYPE_FLOAT32 (caller_heap [2, 3] [])).heap 1
    (by decide) (by decide) (by decide)

/-! ## C9: `free_ndarray` on `NULL` -/

/-- C9: `free_ndarray(NULL)` returns without any release: the heap, its plan
and its allocation log are unchanged. -/
theorem C9_free_null_noop (h : Heap) : free_ndarray none h = Outcome.ret () h := rfl

/-! ## C10: `get_size` -/

/-- C10: `get_size` gives 4 for 32-bit float, 8 for 64-bit float, 4 for 32-bit
integer and 8 for 64-bit integer; for each of the four tags the width is
positive. -/
theorem C10_get_size_widths :
    get_size DTYPE_FLOAT32 = some 4 ∧ get_size DTYPE_FLOAT64 = some 8 ∧
      get_size DTYPE_INT32 = some 4 ∧ get_size DTYPE_INT64 = some 8 ∧
      ∀ dtype ∈ [DTYPE_FLOAT32, DTYPE_FLOAT64, DTYPE_INT32, DTYPE_INT64],
        ∃ w, get_size dtype = some w ∧ 0 < w := by
  refine ⟨rfl, rfl, rfl, rfl, ?_⟩
  intro dtype hd
  simp only [List.mem_cons, List.mem_singleton, List.not_mem_nil, or_false] at hd
  rcases hd with e | e | e | e <;> subst e
  · exact ⟨4, rfl, by norm_num⟩
  · exact ⟨8, rfl, by norm_num⟩
  · exact ⟨4, rfl, by norm_num⟩
  · exact ⟨8, rfl, by norm_num⟩

/-! ## C11: the `dtype` field -/

/-- C11 (the code at the failing input): for the shape [2, 3] with 64-bit float
elements and every allocation granted, `create_ndarray` returns an array whose
`dtype` field was never assigned: it is not `DTYPE_FLOAT64`, the field of the
`malloc`ed struct is still indeterminate, although the 48-byte data buffer
was sized with the tag. -/
theorem C11_dtype_never_assigned :
    (create_ndarray (some 0) 2 DTYPE_FLOAT64 (caller_heap [2, 3] [])).value
        = some (some 1) ∧
      arr_dtype (create_ndarray (some 0) 2 DTYPE_FLOAT64 (caller_heap [2, 3] [])).heap
        (some 1) = none ∧
      arr_dtype (create_ndarray (some 0) 2 DTYPE_FLOAT64 (caller_heap [2, 3] [])).heap
        (some 1) ≠ some DTYPE_FLOAT64 ∧
      (arr_data (create_ndarray (some 0) 2 DTYPE_FLOAT64 (caller_heap [2, 3] [])).heap
        (some 1)).map List.length = some 48 := by
  decide

/-! ## The allocation log only grows -/

theorem alloc_log (h : Heap) (fits : Bool) (b : Block) :
    (h.alloc fits b).2.log = h.log ++ [Event.alloc (h.alloc fits b).1] := by
  unfold Heap.alloc
  split <;> rfl

theorem modify_struct_log {h h' : Heap} {a : Nat} {f : ndarray → ndarray}
    (hm : h.modify_struct a f = some h') : h'.log = h.log := by
  unfold Heap.modify_struct at hm
  split at hm
  · simp only [Option.some.injEq] at hm
    rw [← hm]; rfl
  · simp at hm

theorem write_int_log {h h' : Heap} {p : ptr} {k : Nat} {v : Int}
    (hw : h.write_int p k v = some h') : h'.log = h.log := by
  cases p with
  | none => simp [Heap.write_int] at hw
  | some a =>
    obtain ⟨b, rfl⟩ := write_int_store hw
    rfl

theorem memcpy_ints_log {h h' : Heap} {d s : ptr} {n : Nat}
    (hm : memcpy_ints d s n h = some h') : h'.log = h.log := by
  unfold memcpy_ints at hm
  split at hm
  · split at hm
    · split at hm
      · simp only [Option.some.injEq] at hm
        rw [← hm]; rfl
      · simp at hm
    · simp at hm
  · simp at hm

theorem free_log {h h' : Heap} {p : ptr} (hf : free p h = some h') :
    ∃ E, h'.log = h.log ++ E := by
  unfold free at hf
  split at hf
  · simp only [Option.some.injEq] at hf
    exact ⟨[], by rw [← hf]; simp⟩
  · split at hf
    · simp at hf
    · simp only [Option.some.injEq] at hf
      exact ⟨_, by rw [← hf]⟩

theorem size_loop_log (arr : Nat) (shape : ptr) :
    ∀ (n i : Nat) (h : Heap), (size_loop arr shape i n h).heap.log = h.log
  | 0, _, _ => rfl
  | n + 1, i, h => by
    unfold size_loop
    split
    · split
      · rw [size_loop_log arr shape n]; rfl
      · rfl
    · rfl

theorem calculate_strides_loop_log (shape : ptr) (sa : Nat) :
    ∀ (k : Nat) (h : Heap), (calculate_strides_loop shape sa k h).heap.log = h.log
  | 0, _ => rfl
  | k + 1, h => by
    unfold calculate_strides_loop
    split
    · split
      · rename_i h1 hw
        rw [calculate_strides_loop_log shape sa k, write_int_log hw]
      · rfl
    · rfl

theorem calculate_strides_log (shape : ptr) (ndim : Int) (w : Nat) (h : Heap) :
    ∃ p, (calculate_strides shape ndim w h).heap.log = h.log ++ [Event.alloc p] := by
  unfold calculate_strides malloc_ints
  have ha := alloc_log h true (Block.ints (List.replicate (wrap_size (to_size_t ndim * 4) / 4) none))
  split
  · rename_i h1 he
    rw [he] at ha
    exact ⟨_, ha⟩
  · rename_i sa h1 he
    rw [he] at ha
    refine ⟨some sa, ?_⟩
    split
    · exact ha
    · split
      · exact ha
      · rename_i h2 hw
        have hl := calculate_strides_loop_log shape sa (ndim - 1).toNat h2
        split
        · rename_i h3 he3
          rw [he3] at hl
          show h3.log = _
          rw [show h3.log = h2.log from hl, write_int_log hw]; exact ha
        · rename_i h3 he3
          rw [he3] at hl
          show h3.log = _
          rw [show h3.log = h2.log from hl, write_int_log hw]; exact ha

theorem log_extends_refl (h : Heap) : log_extends h h := ⟨[], by simp⟩

theorem log_extends_of_eq {h h' : Heap} (e : h'.log = h.log) : log_extends h h' :=
  ⟨[], by simp [e]⟩

theorem log_extends_trans {h1 h2 h3 : Heap} (a : log_extends h1 h2) (b : log_extends h2 h3) :
    log_extends h1 h3 := by
  obtain ⟨E1, e1⟩ := a
  obtain ⟨E2, e2⟩ := b
  exact ⟨E1 ++ E2, by rw [e2, e1, List.append_assoc]⟩

theorem free_log_extends {h h' : Heap} {p : ptr} (hf : free p h = some h') :
    log_extends h h' := free_log hf

theorem create_ndarray_cleanup_log (arr : Nat) (s : ndarray) (h : Heap) :
    log_extends h (create_ndarray_cleanup arr s h).heap := by
  unfold create_ndarray_cleanup
  split
  · rename_i shape stride _ _
    split
    · exact log_extends_refl h
    · rename_i h1 hf1
      have e1 := free_log_extends hf1
      split
      · exact e1
      · rename_i h2 hf2
        have e2 : log_extends h1 h2 := by
          split at hf2
          · exact free_log_extends hf2
          · simp only [Option.some.injEq] at hf2
            rw [← hf2]; exact log_extends_refl h1
        split
        · exact log_extends_trans e1 e2
        · rename_i h3 hf3
          exact log_extends_trans (log_extends_trans e1 e2) (free_log_extends hf3)
  · exact log_extends_refl h

theorem create_ndarray_layout_log (arr : Nat) (shape : ptr) (ndim : Int) (dtype : dtype_t)
    (h6 : Heap) : log_extends h6 (create_ndarray_layout arr shape ndim dtype h6).heap := by
  unfold create_ndarray_layout
  split
  · exact log_extends_refl h6
  · rename_i w _
    obtain ⟨p, hcs⟩ := calculate_strides_log shape ndim w h6
    split
    · rename_i h7 he
      rw [he] at hcs
      exact ⟨_, hcs⟩
    · rename_i stride h7 he
      rw [he] at hcs
      have e7 : log_extends h6 h7 := ⟨_, hcs⟩
      split
      · exact e7
      · rename_i h8 hm8
        have e8 : log_extends h6 h8 :=
          log_extends_trans e7 (log_extends_of_eq (modify_struct_log hm8))
        split
        · exact e8
        · split
          · exact e8
          · rename_i size _
            split
            rename_i data h9 hc
            have e9 : log_extends h6 h9 := by
              have := alloc_log h8 (decide (size * w < 2 ^ 64))
                (Block.bytes (List.replicate (size * w) 0))
              unfold calloc at hc
              rw [hc] at this
              exact log_extends_trans e8 ⟨_, this⟩
            split
            · exact e9
            · rename_i h10 hm10
              have e10 : log_extends h6 h10 :=
                log_extends_trans e9 (log_extends_of_eq (modify_struct_log hm10))
              split
              · split
                · exact e10
                · exact log_extends_trans e10 (create_ndarray_cleanup_log _ _ _)
              · exact e10

theorem create_ndarray_log (shape : ptr) (ndim : Int) (dtype : dtype_t) (h0 : Heap) :
    ∃ p E, (create_ndarray shape ndim dtype h0).heap.log = h0.log ++ Event.alloc p :: E := by
  unfold create_ndarray
  have ha := alloc_log h0 true (Block.struct ndarray.fresh)
  unfold malloc_struct
  have key : ∀ (p : ptr) (h1 h' : Heap), h1.log = h0.log ++ [Event.alloc p] →
      log_extends h1 h' → ∃ p E, h'.log = h0.log ++ Event.alloc p :: E := by
    intro p h1 h' e1 e2
    obtain ⟨E, e⟩ := e2
    exact ⟨p, E, by rw [e, e1, List.append_assoc]; rfl⟩
  split
  · rename_i h1 he
    rw [he] at ha
    exact key none h1 _ ha (log_extends_refl h1)
  · rename_i arr h1 he
    rw [he] at ha
    have ha1 : h1.log = h0.log ++ [Event.alloc (some arr)] := ha
    have k1 := fun h' => key (some arr) h1 h' ha1
    have hb := alloc_log h1 true
      (Block.ints (List.replicate (wrap_size (to_size_t ndim * 4) / 4) none))
    unfold malloc_ints
    split
    · rename_i h2 he2
      rw [he2] at hb
      have e2 : log_extends h1 h2 := ⟨_, hb⟩
      split
      · exact k1 _ e2
      · rename_i h3 hf
        exact k1 _ (log_extends_trans e2 (free_log_extends hf))
    · rename_i sp h2 he2
      rw [he2] at hb
      have e2 : log_extends h1 h2 := ⟨_, hb⟩
      split
      · exact k1 _ e2
      · rename_i h3 hm3
        have e3 := log_extends_trans e2 (log_extends_of_eq (modify_struct_log hm3))
        split
        · exact k1 _ e3
        · rename_i h4 hm4
          have e4 := log_extends_trans e3 (log_extends_of_eq (memcpy_ints_log hm4))
          split
          · exact k1 _ e4
          · rename_i h5 hm5
            have e5 := log_extends_trans e4 (log_extends_of_eq (modify_struct_log hm5))
            have hsl := size_loop_log arr shape ndim.toNat 0 h5
            split
            · rename_i h6 he6
              rw [he6] at hsl
              exact k1 _ (log_extends_trans e5 (log_extends_of_eq hsl))
            · rename_i h6 he6
              rw [he6] at hsl
              exact k1 _ (log_extends_trans (log_extends_trans e5 (log_extends_of_eq hsl))
                (create_ndarray_layout_log _ _ _ _ _))

/-! ## C12: shapes that are not valid -/

theorem calculate_strides_zero (shape : ptr) (w : Nat) (h : Heap)
    (hp : h.plan.headD true = true) :
    calculate_strides shape 0 w h =
      Outcome.undef
        { blocks := h.blocks ++ [some (Block.ints [])], plan := h.plan.tail,
          log := h.log ++ [Event.alloc (some h.blocks.length)] } := by
  simp only [calculate_strides, malloc_ints, Heap.alloc, hp, Bool.and_self, if_true]
  rfl

theorem create_ndarray_zero (shape : ptr) (dtype : dtype_t) (w : Nat) (h : Heap)
    (hv : holds_ints h shape [] = true) (hd : get_size dtype = some w)
    (hm : h.plan.headD true = true) (hs : h.plan.tail.headD true = true)
    (ht : h.plan.tail.tail.headD true = true) :
    create_ndarray shape 0 dtype h =
      Outcome.undef
        { blocks := h.blocks ++
            [some (Block.struct
                { data := none, shape := some (some (h.blocks.length + 1)), stride := none,
                  ndim := some 0, size := some 1, dtype := none, owns_data := none }),
             some (Block.ints []), some (Block.ints [])],
          plan := h.plan.tail.tail.tail,
          log := h.log ++ [Event.alloc (some h.blocks.length),
            Event.alloc (some (h.blocks.length + 1)),
            Event.alloc (some (h.blocks.length + 2))] } := by
  have e := create_ndarray_start shape [] dtype h hv (by norm_num) hm hs
  simp only [List.length_nil, Nat.cast_zero, List.map_nil, size_after] at e
  rw [e]
  simp only [create_ndarray_layout, hd]
  rw [calculate_strides_zero _ _ _ ht]
  simp

/-- C12 (counterexample): a call with the shape [0, 3] (32-bit float, every
allocation granted) is not rejected: `create_ndarray` makes four allocation
requests and returns an array, with `size = 0`. A call with `ndim = 0` is not
rejected either: three allocations are requested, and the call then leaves
defined behaviour instead of returning a failure. -/
theorem C12_counterexample :
    (create_ndarray (some 0) 2 DTYPE_FLOAT32 (caller_heap [0, 3] [])).value
        = some (some 1) ∧
      requests (create_ndarray (some 0) 2 DTYPE_FLOAT32 (caller_heap [0, 3] [])).heap.log
        = 4 ∧
      arr_size (create_ndarray (some 0) 2 DTYPE_FLOAT32 (caller_heap [0, 3] [])).heap
        (some 1) = some 0 ∧
      (create_ndarray (some 0) 0 DTYPE_FLOAT32 (caller_heap [] [])).value = none ∧
      requests (create_ndarray (some 0) 0 DTYPE_FLOAT32 (caller_heap [] [])).heap.log = 3 := by
  decide

/-- C12 (amended): `create_ndarray` does not validate the shape. Every call,
whatever the shape, starts with an allocation request (the metadata block).
A shape with `ndim >= 1` is processed whatever the sign of its entries: when
the four allocations are granted it returns an array. With `ndim = 0` and
the allocations granted, the call requests three blocks and then leaves
defined behaviour at the write to `stride_arr[ndim-1]`, without returning. -/
theorem C12_no_shape_validation :
    (∀ (shape : ptr) (ndim : Int) (dtype : dtype_t) (h : Heap),
      ∃ p E, (create_ndarray shape ndim dtype h).heap.log = h.log ++ Event.alloc p :: E) ∧
    (∀ (shape : ptr) (vals : List Int) (dtype : dtype_t) (w : Nat) (h : Heap),
      holds_ints h shape vals = true → 1 ≤ vals.length → vals.length < 2 ^ 31 →
      get_size dtype = some w →
      h.plan.headD true = true → h.plan.tail.headD true = true →
      h.plan.tail.tail.headD true = true → h.plan.tail.tail.tail.headD true = true →
      (vals.prod % 2 ^ 64).toNat * w < 2 ^ 64 →
      (create_ndarray shape (vals.length : Int) dtype h).value = some (some h.blocks.length)) ∧
    (∀ (shape : ptr) (dtype : dtype_t) (w : Nat) (h : Heap),
      holds_ints h shape [] = true → get_size dtype = some w →
      h.plan.headD true = true → h.plan.tail.headD true = true →
      h.plan.tail.tail.headD true = true →
      (create_ndarray shape 0 dtype h).value = none ∧
      requests (create_ndarray shape 0 dtype h).heap.log = requests h.log + 3) := by
  refine ⟨create_ndarray_log, ?_, ?_⟩
  · intro shape vals dtype w h hv h1 hlt hd hm hs ht hd4 hfit
    have e : size_after 1 vals = (vals.prod % 2 ^ 64).toNat := by
      rw [size_after_eq vals 1 (by norm_num)]; simp
    rw [create_ndarray_ok shape vals dtype w h hv h1 hlt hd hm hs ht
      (by rw [e, hd4, Bool.and_true]; exact decide_eq_true hfit)]
    rfl
  · intro shape dtype w h hv hd hm hs ht
    rw [create_ndarray_zero shape dtype w h hv hd hm hs ht]
    refine ⟨rfl, ?_⟩
    simp [Outcome.heap, requests_append, requests]

/-- C12 (witness): the shape [0, 3] with every allocation granted, and a call
with `ndim = 0`. -/
theorem C12_no_shape_validation_witness :
    (∃ p E, (create_ndarray (some 0) 2 DTYPE_FLOAT32 (caller_heap [0, 3] [])).heap.log =
        (caller_heap [0, 3] []).log ++ Event.alloc p :: E) ∧
      (create_ndarray (some 0) (([0, 3] : List Int).length : Int) DTYPE_FLOAT32
        (caller_heap [0, 3] [])).value = some (some (caller_heap [0, 3] []).blocks.length) ∧
      ((create_ndarray (some 0) 0 DTYPE_FLOAT32 (caller_heap [] [])).value = none ∧
        requests (create_ndarray (some 0) 0 DTYPE_FLOAT32 (caller_heap [] [])).heap.log =
          requests (caller_heap [] []).log + 3) :=
  ⟨C12_no_shape_validation.1 (some 0) 2 DTYPE_FLOAT32 (caller_heap [0, 3] []),
    C12_no_shape_validation.2.1 (some 0) [0, 3] DTYPE_FLOAT32 4 (caller_heap [0, 3] [])
      (by decide) (by decide) (by decide) (by decide) (by decide) (by decide) (by decide)
      (by decide) (by decide),
    C12_no_shape_validation.2.2 (some 0) DTYPE_FLOAT32 4 (caller_heap [] [])
      (by decide) (by decide) (by decide) (by decide) (by decide)⟩

/-! ## C13: products that overflow -/

/-- C13 (counterexample): for the shape [65536, 65536, 65536, 65536] with
32-bit float elements the product of the entries is `2 ^ 64`, which no
`size_t` holds. `create_ndarray` does not report a failure: it makes all four
allocation requests, the data buffer included, and returns an array whose
`size` is the wrapped-around value 0 and whose strides are the wrapped-around
values [0, 0, 262144, 4]. -/
theorem C13_counterexample :
    ([65536, 65536, 65536, 65536] : List Int).prod = 2 ^ 64 ∧
      (create_ndarray (some 0) 4 DTYPE_FLOAT32
        (caller_heap [65536, 65536, 65536, 65536] [])).value = some (some 1) ∧
      requests (create_ndarray (some 0) 4 DTYPE_FLOAT32
        (caller_heap [65536, 65536, 65536, 65536] [])).heap.log = 4 ∧
      arr_size (create_ndarray (some 0) 4 DTYPE_FLOAT32
        (caller_heap [65536, 65536, 65536, 65536] [])).heap (some 1) = some 0 ∧
      (List.range 4).map (arr_stride (create_ndarray (some 0) 4 DTYPE_FLOAT32
        (caller_heap [65536, 65536, 65536, 65536] [])).heap (some 1)) =
        [some 0, some 0, some 262144, some 4] := by
  decide

/-- C13 (amended): `create_ndarray` has no overflow check of its own. On a
valid call whose four allocation requests the allocator is willing to grant,
it always calls the allocator for the data buffer, with the product of the
entries reduced modulo `2 ^ 64` as element count; the call returns `NULL`
exactly when that reduced count times the element width is not representable
in `size_t` (`calloc` refuses), and otherwise returns an array whose `size`
field is the reduced product and whose strides are the 32-bit `int` products
`stride[i] = shape[i+1] * stride[i+1]`. -/
theorem C13_no_overflow_detection (shape : ptr) (vals : List Int) (dtype : dtype_t) (w : Nat)
    (h : Heap)
    (hv : holds_ints h shape vals = true) (h1 : 1 ≤ vals.length) (hlt : vals.length < 2 ^ 31)
    (hd : get_size dtype = some w)
    (hm : h.plan.headD true = true) (hs : h.plan.tail.headD true = true)
    (ht : h.plan.tail.tail.headD true = true)
    (hd4 : h.plan.tail.tail.tail.headD true = true) :
    ∃ p h', create_ndarray shape (vals.length : Int) dtype h = Outcome.ret p h' ∧
      requests h'.log = requests h.log + 4 ∧
      (p = none ↔ 2 ^ 64 ≤ (vals.prod % 2 ^ 64).toNat * w) ∧
      ∀ a, p = some a → arr_size h' (some a) = some (vals.prod % 2 ^ 64).toNat ∧
        ∀ i, i + 1 < vals.length →
          ∃ s t, arr_shape h' (some a) (i + 1) = some s ∧
            arr_stride h' (some a) (i + 1) = some t ∧
            arr_stride h' (some a) i = some (wrap_int (s * t)) := by
  have e : size_after 1 vals = (vals.prod % 2 ^ 64).toNat := by
    rw [size_after_eq vals 1 (by norm_num)]; simp
  by_cases hfit : (vals.prod % 2 ^ 64).toNat * w < 2 ^ 64
  · refine ⟨_, _, create_ndarray_ok shape vals dtype w h hv h1 hlt hd hm hs ht
      (by rw [e, hd4, Bool.and_true]; exact decide_eq_true hfit), ?_, ?_, ?_⟩
    · simp [built_heap, requests_append, requests]
    · constructor
      · intro hp; simp at hp
      · intro hge; omega
    · intro a ha
      simp only [Option.some.injEq] at ha
      subst ha
      refine ⟨by rw [built_arr_size, e], ?_⟩
      intro i hi
      obtain ⟨s, t, e1, e2, e3⟩ := row_major_step (wrap_int w) (vals.drop 1) i
        (by simp; omega)
      have es : vals.get? (i + 1) = some s := by
        rw [← e1]
        simp only [List.get?_eq_getElem?, List.getElem?_drop, Nat.add_comm 1 i]
      exact ⟨s, t, by rw [built_arr_shape, es], by rw [built_arr_stride, e2],
        by rw [built_arr_stride, e3]⟩
  · refine ⟨_, _, create_ndarray_data_fail shape vals dtype w h hv h1 hlt hd hm hs ht
      (by rw [e, hd4, Bool.and_true]; exact decide_eq_false hfit), ?_, ?_, ?_⟩
    · simp [requests_append, requests]
    · constructor
      · intro _; omega
      · intro _; rfl
    · intro a ha; simp at ha

/-- C13 (witness): the shape [65536, 65536, 65536, 65536] with 32-bit float
elements. -/
theorem C13_no_overflow_detection_witness :
    ∃ p h', create_ndarray (some 0) (([65536, 65536, 65536, 65536] : List Int).length : Int)
        DTYPE_FLOAT32 (caller_heap [65536, 65536, 65536, 65536] []) = Outcome.ret p h' ∧
      requests h'.log = requests (caller_heap [65536, 65536, 65536, 65536] []).log + 4 ∧
      (p = none ↔
        2 ^ 64 ≤ (([65536, 65536, 65536, 65536] : List Int).prod % 2 ^ 64).toNat * 4) ∧
      ∀ a, p = some a →
        arr_size h' (some a) =
          some (([65536, 65536, 65536, 65536] : List Int).prod % 2 ^ 64).toNat ∧
        ∀ i, i + 1 < ([65536, 65536, 65536, 65536] : List Int).length →
          ∃ s t, arr_shape h' (some a) (i + 1) = some s ∧
            arr_stride h' (some a) (i + 1) = some t ∧
            arr_stride h' (some a) i = some (wrap_int (s * t)) :=
  C13_no_overflow_detection (some 0) [65536, 65536, 65536, 65536] DTYPE_FLOAT32 4
    (caller_heap [65536, 65536, 65536, 65536] [])
    (by decide) (by decide) (by decide) (by decide) (by decide) (by decide) (by decide)
    (by decide)

/-! ## C14: tags outside the closed set -/

theorem get_size_outside {dtype : dtype_t}
    (hout : dtype ∉ [DTYPE_FLOAT32, DTYPE_FLOAT64, DTYPE_INT32, DTYPE_INT64]) :
    get_size dtype = none := by
  simp only [List.mem_cons, List.mem_singleton, List.not_mem_nil, or_false, not_or] at hout
  simp [get_size, hout.1, hout.2.1, hout.2.2.1, hout.2.2.2]

theorem create_ndarray_no_width (shape : ptr) (vals : List Int) (dtype : dtype_t) (h : Heap)
    (hv : holds_ints h shape vals = true) (hlt : vals.length < 2 ^ 31)
    (hd : get_size dtype = none)
    (hm : h.plan.headD true = true) (hs : h.plan.tail.headD true = true) :
    create_ndarray shape (vals.length : Int) dtype h =
      Outcome.undef
        { blocks := h.blocks ++
            [some (Block.struct
                { data := none, shape := some (some (h.blocks.length + 1)), stride := none,
                  ndim := some (vals.length : Int), size := some (size_after 1 vals),
                  dtype := none, owns_data := none }),
             some (Block.ints (vals.map some))],
          plan := h.plan.tail.tail,
          log := h.log ++ [Event.alloc (some h.blocks.length),
            Event.alloc (some (h.blocks.length + 1))] } := by
  rw [create_ndarray_start shape vals dtype h hv hlt hm hs]
  simp only [create_ndarray_layout, hd]

/-- C14 (counterexample): for the tag 7, outside the closed set, `get_size`
yields no width and reports nothing; `create_ndarray` called with the shape [4]
and this tag does not return a failure: it has made two allocation requests
(the metadata block and the shape copy) when it calls `get_size`, and has no
defined result from there on. -/
theorem C14_counterexample :
    (7 : dtype_t) ∉ [DTYPE_FLOAT32, DTYPE_FLOAT64, DTYPE_INT32, DTYPE_INT64] ∧
      get_size 7 = none ∧
      (create_ndarray (some 0) 1 7 (caller_heap [4] [])).value = none ∧
      requests (create_ndarray (some 0) 1 7 (caller_heap [4] [])).heap.log = 2 ∧
      (create_ndarray (some 0) 1 7 (caller_heap [4] [])).heap.live = [0, 1, 2] := by
  decide

/-- C14 (amended): for every tag outside the closed set of four `get_size`
reaches the end of the function without a `return`: it yields no width and
reports nothing. `create_ndarray` does not reject such a call before
allocating: every call starts with an allocation request, and when the
metadata block and the shape copy are granted the call reaches `get_size`
with these two blocks allocated and does not return. -/
theorem C14_unknown_tag_not_rejected (dtype : dtype_t)
    (hout : dtype ∉ [DTYPE_FLOAT32, DTYPE_FLOAT64, DTYPE_INT32, DTYPE_INT64]) :
    get_size dtype = none ∧
      (∀ (shape : ptr) (ndim : Int) (h : Heap),
        ∃ p E, (create_ndarray shape ndim dtype h).heap.log = h.log ++ Event.alloc p :: E) ∧
      (∀ (shape : ptr) (vals : List Int) (h : Heap),
        holds_ints h shape vals = true → vals.length < 2 ^ 31 →
        h.plan.headD true = true → h.plan.tail.headD true = true →
        (create_ndarray shape (vals.length : Int) dtype h).value = none ∧
        (create_ndarray shape (vals.length : Int) dtype h).heap.log =
          h.log ++ [Event.alloc (some h.blocks.length),
            Event.alloc (some (h.blocks.length + 1))] ∧
        (create_ndarray shape (vals.length : Int) dtype h).heap.load h.blocks.length ≠ none ∧
        (create_ndarray shape (vals.length : Int) dtype h).heap.load (h.blocks.length + 1)
          ≠ none) := by
  have hd := get_size_outside hout
  refine ⟨hd, fun shape ndim h => create_ndarray_log shape ndim dtype h, ?_⟩
  intro shape vals h hv hlt hm hs
  rw [create_ndarray_no_width shape vals dtype h hv hlt hd hm hs]
  refine ⟨rfl, rfl, ?_, ?_⟩
  · simp only [Outcome.heap, load_tail_zero]
    simp
  · simp only [Outcome.heap, load_tail]
    simp

/-- C14 (witness): the tag 7 and the shape [4]. -/
theorem C14_unknown_tag_not_rejected_witness :
    get_size 7 = none ∧
      (∀ (shape : ptr) (ndim : Int) (h : Heap),
        ∃ p E, (create_ndarray shape ndim 7 h).heap.log = h.log ++ Event.alloc p :: E) ∧
      (∀ (shape : ptr) (vals : List Int) (h : Heap),
        holds_ints h shape vals = true → vals.length < 2 ^ 31 →
        h.plan.headD true = true → h.plan.tail.headD true = true →
        (create_ndarray shape (vals.length : Int) 7 h).value = none ∧
        (create_ndarray shape (vals.length : Int) 7 h).heap.log =
          h.log ++ [Event.alloc (some h.blocks.length),
            Event.alloc (some (h.blocks.length + 1))] ∧
        (create_ndarray shape (vals.length : Int) 7 h).heap.load h.blocks.length ≠ none ∧
        (create_ndarray shape (vals.length : Int) 7 h).heap.load (h.blocks.length + 1)
          ≠ none) :=
  C14_unknown_tag_not_rejected 7 (by decide)

/-! ## C15: the lengths of `shape` and `stride` -/

/-- C15: an array returned by `create_ndarray` has its `ndim` field equal to
the `ndim` argument of the call, and its `shape` and `stride` arrays both have
exactly `ndim` cells. -/
theorem C15_lengths_equal_ndim (shape : ptr) (vals : List Int) (dtype : dtype_t) (h h' : Heap)
    (a : Nat) (hv : holds_ints h shape vals = true) (hlt : vals.length < 2 ^ 31)
    (hr : create_ndarray shape (vals.length : Int) dtype h = Outcome.ret (some a) h') :
    ∃ s sp st sc stc, h'.read_struct (some a) = some s ∧
      s.ndim = some (vals.length : Int) ∧
      s.shape = some (some sp) ∧ s.stride = some (some st) ∧
      h'.load sp = some (Block.ints sc) ∧ h'.load st = some (Block.ints stc) ∧
      sc.length = vals.length ∧ stc.length = vals.length := by
  obtain ⟨h1, w, -, rfl, rfl, -⟩ := create_ndarray_success shape vals dtype h h' a hv hlt hr
  refine ⟨_, _, _, vals.map some, (row_major (wrap_int w) (vals.drop 1)).map some,
    built_read_struct h vals w, rfl, rfl, rfl, ?_, ?_, ?_, ?_⟩
  · rw [built_load]; rfl
  · rw [built_load]; rfl
  · simp
  · rw [List.length_map, row_major_length, List.length_drop]
    omega

/-- C15 (witness): the shape [2, 3, 4] with 32-bit integer elements. -/
theorem C15_lengths_equal_ndim_witness :
    ∃ s sp st sc stc,
      (create_ndarray (some 0) 3 DTYPE_INT32 (caller_heap [2, 3, 4] [])).heap.read_struct
        (some 1) = some s ∧
      s.ndim = some (([2, 3, 4] : List Int).length : Int) ∧
      s.shape = some (some sp) ∧ s.stride = some (some st) ∧
      (create_ndarray (some 0) 3 DTYPE_INT32 (caller_heap [2, 3, 4] [])).heap.load sp =
        some (Block.ints sc) ∧
      (create_ndarray (some 0) 3 DTYPE_INT32 (caller_heap [2, 3, 4] [])).heap.load st =
        some (Block.ints stc) ∧
      sc.length = ([2, 3, 4] : List Int).length ∧ stc.length = ([2, 3, 4] : List Int).length :=
  C15_lengths_equal_ndim (some 0) [2, 3, 4] DTYPE_INT32 (caller_heap [2, 3, 4] [])
    (create_ndarray (some 0) 3 DTYPE_INT32 (caller_heap [2, 3, 4] [])).heap 1
    (by decide) (by decide) (by decide)

/-! ## C16: what a failed `create_ndarray` leaves behind -/

theorem alloc_results_append : ∀ (G E : List Event),
    alloc_results (G ++ E) = alloc_results G ++ alloc_results E
  | [], E => by simp [alloc_results]
  | Event.alloc _ :: G, E => by simp [alloc_results, alloc_results_append G E]
  | Event.free _ :: G, E => by simp [alloc_results, alloc_results_append G E]

theorem live_from_append : ∀ (B X : List (Option Block)) (k : Nat),
    live_from k (B ++ X) = live_from k B ++ live_from (k + B.length) X
  | [], X, k => by simp [live_from]
  | none :: B, X, k => by
    have ih := live_from_append B X (k + 1)
    rw [List.cons_append]
    simp only [live_from, List.length_cons]
    rw [ih]
    congr 2; omega
  | some _ :: B, X, k => by
    have ih := live_from_append B X (k + 1)
    rw [List.cons_append]
    simp only [live_from, List.length_cons, List.cons_append]
    rw [ih]
    congr 3; omega

/-- C16: when `create_ndarray` returns `NULL` on a valid call, let `R` list
the results of the allocation requests it made, in order (metadata block,
shape copy, stride array, data buffer). A block allocated during the call is
still allocated afterwards if and only if it is the data buffer and the
stride request failed; so the outstanding allocations are those from before
the call, plus the data buffer exactly when the stride allocation failed
while the data allocation succeeded. -/
theorem C16_leftovers_of_failure (shape : ptr) (vals : List Int) (dtype : dtype_t) (w : Nat)
    (h h' : Heap)
    (hv : holds_ints h shape vals = true) (h1 : 1 ≤ vals.length) (hlt : vals.length < 2 ^ 31)
    (hd : get_size dtype = some w)
    (hr : create_ndarray shape (vals.length : Int) dtype h = Outcome.ret none h') :
    ∃ R, alloc_results h'.log = alloc_results h.log ++ R ∧ R.length ≤ 4 ∧
      (∀ x, some x ∈ R →
        (h'.load x ≠ none ↔ (R.get? 2 = some none ∧ R.get? 3 = some (some x)))) ∧
      ((R.get? 2 = some none ∧ ∃ d, R.get? 3 = some (some d) ∧ h'.live = h.live ++ [d]) ∨
        (¬ (R.get? 2 = some none ∧ ∃ d, R.get? 3 = some (some d)) ∧ h'.live = h.live)) := by
  cases hm : h.plan.headD true with
  | false =>
    rw [create_ndarray_meta_fail _ _ _ _ hm] at hr
    simp only [Outcome.ret.injEq, true_and] at hr
    subst hr
    refine ⟨[none], by simp [alloc_results_append, alloc_results], by simp, ?_, ?_⟩
    · intro x hx; simp at hx
    · exact Or.inr ⟨by simp, rfl⟩
  | true =>
    cases hs : h.plan.tail.headD true with
    | false =>
      rw [create_ndarray_shape_fail _ _ _ _ hm hs] at hr
      simp only [Outcome.ret.injEq, true_and] at hr
      subst hr
      refine ⟨[some h.blocks.length, none],
        by simp [alloc_results_append, alloc_results], by simp, ?_, ?_⟩
      · intro x hx
        simp only [List.mem_cons, Option.some.injEq, List.mem_singleton, List.not_mem_nil,
          or_false] at hx
        rcases hx with rfl | hx
        · simp [load_tail_zero]
        · simp at hx
      · refine Or.inr ⟨by simp, ?_⟩
        simp only [Heap.live, live_from_append, live_from, List.append_nil]
    | true =>
      cases ht : h.plan.tail.tail.headD true with
      | false =>
        cases hdd : (decide (size_after 1 vals * w < 2 ^ 64) &&
            h.plan.tail.tail.tail.headD true) with
        | false =>
          rw [create_ndarray_both_fail _ _ _ _ _ hv hlt hd hm hs ht hdd] at hr
          simp only [Outcome.ret.injEq, true_and] at hr
          subst hr
          refine ⟨[some h.blocks.length, some (h.blocks.length + 1), none, none],
            by simp [alloc_results_append, alloc_results], by simp, ?_, ?_⟩
          · intro x hx
            simp only [List.mem_cons, Option.some.injEq, List.not_mem_nil, or_false] at hx
            rcases hx with rfl | rfl | hx | hx
            · simp [load_tail_zero]
            · simp [load_tail]
            · simp at hx
            · simp at hx
          · refine Or.inr ⟨by simp, ?_⟩
            simp only [Heap.live, live_from_append, live_from, List.append_nil]
        | true =>
          rw [create_ndarray_stride_fail _ _ _ _ _ hv hlt hd hm hs ht hdd] at hr
          simp only [Outcome.ret.injEq, true_and] at hr
          subst hr
          refine ⟨[some h.blocks.length, some (h.blocks.length + 1), none,
            some (h.blocks.length + 2)],
            by simp [alloc_results_append, alloc_results], by simp, ?_, ?_⟩
          · intro x hx
            simp only [List.mem_cons, Option.some.injEq, List.not_mem_nil, or_false] at hx
            rcases hx with rfl | rfl | hx | rfl
            · simp [load_tail_zero]
            · simp [load_tail]
            · simp at hx
            · simp [load_tail]
          · refine Or.inl ⟨by simp, h.blocks.length + 2, by simp, ?_⟩
            simp only [Heap.live, live_from_append, live_from, zero_add]
      | true =>
        cases hdd : (decide (size_after 1 vals * w < 2 ^ 64) &&
            h.plan.tail.tail.tail.headD true) with
        | false =>
          rw [create_ndarray_data_fail _ _ _ _ _ hv h1 hlt hd hm hs ht hdd] at hr
          simp only [Outcome.ret.injEq, true_and] at hr
          subst hr
          refine ⟨[some h.blocks.length, some (h.blocks.length + 1),
            some (h.blocks.length + 2), none],
            by simp [alloc_results_append, alloc_results], by simp, ?_, ?_⟩
          · intro x hx
            simp only [List.mem_cons, Option.some.injEq, List.not_mem_nil, or_false] at hx
            rcases hx with rfl | rfl | rfl | hx
            · simp [load_tail_zero]
            · simp [load_tail]
            · simp [load_tail]
            · simp at hx
          · refine Or.inr ⟨by simp, ?_⟩
            simp only [Heap.live, live_from_append, live_from, List.append_nil]
        | true =>
          rw [create_ndarray_ok _ _ _ _ _ hv h1 hlt hd hm hs ht hdd] at hr
          simp at hr

/-- C16 (witness): the shape [2, 3] with 32-bit float elements, the stride
allocation failing and the data allocation granted. -/
theorem C16_leftovers_of_failure_witness :
    ∃ R, alloc_results (create_ndarray (some 0) 2 DTYPE_FLOAT32
          (caller_heap [2, 3] [true, true, false])).heap.log =
        alloc_results (caller_heap [2, 3] [true, true, false]).log ++ R ∧ R.length ≤ 4 ∧
      (∀ x, some x ∈ R →
        ((create_ndarray (some 0) 2 DTYPE_FLOAT32
            (caller_heap [2, 3] [true, true, false])).heap.load x ≠ none ↔
          (R.get? 2 = some none ∧ R.get? 3 = some (some x)))) ∧
      ((R.get? 2 = some none ∧ ∃ d, R.get? 3 = some (some d) ∧
          (create_ndarray (some 0) 2 DTYPE_FLOAT32
            (caller_heap [2, 3] [true, true, false])).heap.live =
            (caller_heap [2, 3] [true, true, false]).live ++ [d]) ∨
        (¬ (R.get? 2 = some none ∧ ∃ d, R.get? 3 = some (some d)) ∧
          (create_ndarray (some 0) 2 DTYPE_FLOAT32
            (caller_heap [2, 3] [true, true, false])).heap.live =
            (caller_heap [2, 3] [true, true, false]).live)) :=
  C16_leftovers_of_failure (some 0) [2, 3] DTYPE_FLOAT32 4
    (caller_heap [2, 3] [true, true, false])
    (create_ndarray (some 0) 2 DTYPE_FLOAT32 (caller_heap [2, 3] [true, true, false])).heap
    (by decide) (by decide) (by decide) (by decide) (by decide)

/-! ## Arithmetic of row-major offsets -/

theorem strides_exact_length (w : Int) : ∀ l : List Int, (strides_exact w l).length = l.length
  | [] => rfl
  | _ :: l => by simp [strides_exact, strides_exact_length w l]

theorem row_major_eq_exact (w : Int) (hw : 0 ≤ w) (hww : wrap_int w = w) :
    ∀ (l : List Int) (s : Int), (∀ v ∈ l, 1 ≤ v) → l.prod * w < 2 ^ 31 →
      row_major w l = strides_exact w (s :: l)
  | [], s, _, _ => by simp [row_major, strides_exact]
  | y :: r, s, h, hf => by
    have hy : 1 ≤ y := h y (by simp)
    have hr : ∀ v ∈ r, 1 ≤ v := fun v hv => h v (by simp [hv])
    have hp := prod_pos_of r hr
    have hnn : 0 ≤ r.prod * w := by positivity
    rw [List.prod_cons] at hf
    have hle : r.prod * w ≤ y * r.prod * w := by nlinarith
    have ih := row_major_eq_exact w hw hww r y hr (by omega)
    have e : row_major w (y :: r) =
        wrap_int (y * (row_major w r).headD 0) :: row_major w r := rfl
    rw [e, ih]
    simp only [strides_exact, List.headD_cons, List.prod_cons]
    rw [wrap_int_of_range (by nlinarith) (by nlinarith)]
    congr 1; ring

theorem strides_exact_get (w : Int) : ∀ (l : List Int) (i : Nat), i < l.length →
    (strides_exact w l).get? i = some ((l.drop (i + 1)).prod * w)
  | [], i, hi => by simp at hi
  | _ :: l, 0, _ => by simp [strides_exact]
  | _ :: l, i + 1, hi => by
    simpa [strides_exact] using strides_exact_get w l i (by simpa using hi)

theorem in_bounds_pos : ∀ (idx vals : List Int), in_bounds idx vals → ∀ v ∈ vals, 1 ≤ v
  | [], [], _ => by simp
  | [], _ :: _, h => by simp [in_bounds] at h
  | _ :: _, [], h => by simp [in_bounds] at h
  | i :: is, s :: ss, h => by
    obtain ⟨h0, h1, h2⟩ := h
    intro v hv
    simp only [List.mem_cons] at hv
    rcases hv with rfl | hv
    · omega
    · exact in_bounds_pos is ss h2 v hv

theorem offset_eq_rank (w : Int) : ∀ (idx vals : List Int), in_bounds idx vals →
    byte_offset idx (strides_exact w vals) = rank idx vals * w
  | [], [], _ => by simp [byte_offset, rank, strides_exact]
  | [], _ :: _, h => by simp [in_bounds] at h
  | _ :: _, [], h => by simp [in_bounds] at h
  | i :: is, s :: ss, h => by
    simp only [strides_exact, byte_offset, rank, offset_eq_rank w is ss h.2.2]
    ring

theorem rank_bounds : ∀ (idx vals : List Int), in_bounds idx vals →
    0 ≤ rank idx vals ∧ rank idx vals < vals.prod
  | [], [], _ => by simp [rank]
  | [], _ :: _, h => by simp [in_bounds] at h
  | _ :: _, [], h => by simp [in_bounds] at h
  | i :: is, s :: ss, h => by
    obtain ⟨h0, h1, h2⟩ := h
    obtain ⟨r0, r1⟩ := rank_bounds is ss h2
    have hp := prod_pos_of ss (in_bounds_pos is ss h2)
    simp only [rank, List.prod_cons]
    constructor
    · positivity
    · nlinarith

theorem rank_inj : ∀ (idx idx' vals : List Int), in_bounds idx vals → in_bounds idx' vals →
    rank idx vals = rank idx' vals → idx = idx'
  | [], [], [], _, _, _ => rfl
  | [], _ :: _, [], _, h, _ => by simp [in_bounds] at h
  | _ :: _, _, [], h, _, _ => by simp [in_bounds] at h
  | [], _, _ :: _, h, _, _ => by simp [in_bounds] at h
  | _ :: _, [], _ :: _, _, h, _ => by simp [in_bounds] at h
  | i :: is, j :: js, s :: ss, h, h', e => by
    obtain ⟨-, -, h2⟩ := h
    obtain ⟨-, -, h2'⟩ := h'
    obtain ⟨a0, a1⟩ := rank_bounds is ss h2
    obtain ⟨b0, b1⟩ := rank_bounds js ss h2'
    simp only [rank] at e
    have hp : 0 < ss.prod := by omega
    have ea : rank is ss = (i * ss.prod + rank is ss) % ss.prod := by
      rw [Int.add_comm, Int.add_mul_emod_self, Int.emod_eq_of_lt a0 a1]
    have eb : rank js ss = (j * ss.prod + rank js ss) % ss.prod := by
      rw [Int.add_comm, Int.add_mul_emod_self, Int.emod_eq_of_lt b0 b1]
    have eab : rank is ss = rank js ss := by rw [ea, eb, e]
    have eij : i = j := by
      rw [eab] at e
      have : i * ss.prod = j * ss.prod := by omega
      exact Int.eq_of_mul_eq_mul_right (by omega) this
    rw [eij, rank_inj is js ss h2 h2' eab]

theorem rank_surj : ∀ (vals : List Int), (∀ v ∈ vals, 1 ≤ v) → ∀ k : Int, 0 ≤ k →
    k < vals.prod → ∃ idx, in_bounds idx vals ∧ rank idx vals = k
  | [], _, k, h0, h1 => by
    simp only [List.prod_nil] at h1
    exact ⟨[], trivial, by simp [rank]; omega⟩
  | s :: ss, h, k, h0, h1 => by
    have hss : ∀ v ∈ ss, 1 ≤ v := fun v hv => h v (by simp [hv])
    have hp := prod_pos_of ss hss
    have hp0 : 0 < ss.prod := by omega
    rw [List.prod_cons] at h1
    obtain ⟨idx, hb, hr⟩ := rank_surj ss hss (k % ss.prod) (Int.emod_nonneg _ (by omega))
      (Int.emod_lt_of_pos _ hp0)
    refine ⟨(k / ss.prod) :: idx, ⟨Int.ediv_nonneg h0 (by omega), ?_, hb⟩, ?_⟩
    · exact Int.ediv_lt_of_lt_mul hp0 h1
    · simp only [rank, hr]
      rw [mul_comm]
      exact Int.ediv_add_emod k ss.prod

theorem strides_of_valid (vals : List Int) (w : Nat) (h1 : 1 ≤ vals.length)
    (hpos : ∀ v ∈ vals, 1 ≤ v) (hfit : vals.prod * (w : Int) < 2 ^ 31) :
    row_major (wrap_int w) (vals.drop 1) = strides_exact (w : Int) vals := by
  cases vals with
  | nil => simp at h1
  | cons s l =>
    have hs : 1 ≤ s := hpos s (by simp)
    have hl : ∀ v ∈ l, 1 ≤ v := fun v hv => hpos v (by simp [hv])
    have hp := prod_pos_of l hl
    rw [List.prod_cons] at hfit
    have hw0 : (0 : Int) ≤ w := Int.natCast_nonneg w
    have hlw : l.prod * (w : Int) < 2 ^ 31 := by nlinarith
    have hww : wrap_int (w : Int) = (w : Int) := by
      apply wrap_int_of_range <;> nlinarith
    rw [hww]
    exact row_major_eq_exact (w : Int) hw0 hww l s hl hlw

theorem strides_of_no_overflow (vals : List Int) (w : Nat) (h1 : 1 ≤ vals.length)
    (hpos : ∀ v ∈ vals, 1 ≤ v) (hfit : (vals.drop 1).prod * (w : Int) < 2 ^ 31) :
    row_major (wrap_int w) (vals.drop 1) = strides_exact (w : Int) vals := by
  cases vals with
  | nil => simp at h1
  | cons s l =>
    have hl : ∀ v ∈ l, 1 ≤ v := fun v hv => hpos v (by simp [hv])
    have hp := prod_pos_of l hl
    have hw0 : (0 : Int) ≤ w := Int.natCast_nonneg w
    have hlw : l.prod * (w : Int) < 2 ^ 31 := by simpa using hfit
    have hww : wrap_int (w : Int) = (w : Int) := by
      apply wrap_int_of_range <;> nlinarith
    rw [hww]
    exact row_major_eq_exact (w : Int) hw0 hww l s hl hlw

theorem calculate_strides_reads (shape : ptr) (vals : List Int) (w : Nat) (h h' : Heap)
    (st : Nat) (hv : holds_ints h shape vals = true) (h1 : 1 ≤ vals.length)
    (hlt : vals.length < 2 ^ 31)
    (hr : calculate_strides shape (vals.length : Int) w h = Outcome.ret (some st) h') :
    (∀ i, h'.read_int (some st) i = (row_major (wrap_int w) (vals.drop 1)).get? i) ∧
      (∀ i v, vals.get? i = some v → h'.read_int shape i = some v) := by
  rcases calculate_strides_total shape vals w h hv h1 hlt with ⟨-, e⟩ | ⟨-, e⟩
  · rw [e] at hr
    simp only [Outcome.ret.injEq, Option.some.injEq] at hr
    obtain ⟨rfl, rfl⟩ := hr
    constructor
    · intro i
      simp only [Heap.read_int, load_tail_zero, List.get?_cons_zero]
      exact join_get_map_some _ i
    · intro i v hi
      exact read_int_append _ _ _ (holds_ints_read hv i v hi)
  · rw [e] at hr
    simp at hr

/-! ## C17: every element is addressed exactly once -/

/-- C17: for a shape with `ndim >= 1` and all extents `>= 1` whose total byte
size `product(shape) * w` fits the `int` of the stride array, and a positive
element width `w`, take the strides that `calculate_strides` wrote. The byte
offset `sum(indices[i] * stride[i])` of every in-bounds index tuple is a
multiple of `w`, lies between 0 and `product(shape) * w - w`, two distinct
in-bounds tuples have distinct offsets, and every multiple `k * w` with
`0 <= k < product(shape)` is the offset of an in-bounds tuple. -/
theorem C17_offsets_address_each_element_once (shape : ptr) (vals : List Int) (w : Nat)
    (h h' : Heap) (st : Nat)
    (hv : holds_ints h shape vals = true) (h1 : 1 ≤ vals.length) (hlt : vals.length < 2 ^ 31)
    (hpos : ∀ v ∈ vals, 1 ≤ v) (hfit : vals.prod * (w : Int) < 2 ^ 31) (hw : 0 < w)
    (hr : calculate_strides shape (vals.length : Int) w h = Outcome.ret (some st) h') :
    ∃ strides : List Int, strides.length = vals.length ∧
      (∀ i, h'.read_int (some st) i = strides.get? i) ∧
      (∀ idx, in_bounds idx vals →
        (w : Int) ∣ byte_offset idx strides ∧ 0 ≤ byte_offset idx strides ∧
        byte_offset idx strides ≤ vals.prod * (w : Int) - (w : Int)) ∧
      (∀ idx idx', in_bounds idx vals → in_bounds idx' vals → idx ≠ idx' →
        byte_offset idx strides ≠ byte_offset idx' strides) ∧
      (∀ k : Int, 0 ≤ k → k < vals.prod →
        ∃ idx, in_bounds idx vals ∧ byte_offset idx strides = k * (w : Int)) := by
  obtain ⟨hrd, -⟩ := calculate_strides_reads shape vals w h h' st hv h1 hlt hr
  rw [strides_of_valid vals w h1 hpos hfit] at hrd
  have hw0 : (0 : Int) < w := by exact_mod_cast hw
  refine ⟨strides_exact (w : Int) vals, strides_exact_length _ _, hrd, ?_, ?_, ?_⟩
  · intro idx hb
    obtain ⟨r0, r1⟩ := rank_bounds idx vals hb
    rw [offset_eq_rank (w : Int) idx vals hb]
    refine ⟨Dvd.intro_left _ rfl, by positivity, ?_⟩
    nlinarith
  · intro idx idx' hb hb' hne he
    rw [offset_eq_rank (w : Int) idx vals hb, offset_eq_rank (w : Int) idx' vals hb'] at he
    have := Int.eq_of_mul_eq_mul_right (by omega) he
    exact hne (rank_inj idx idx' vals hb hb' this)
  · intro k k0 k1
    obtain ⟨idx, hb, hk⟩ := rank_surj vals hpos k k0 k1
    exact ⟨idx, hb, by rw [offset_eq_rank (w : Int) idx vals hb, hk]⟩

/-- C17 (witness): the shape [2, 3, 4] with 4-byte elements. -/
theorem C17_offsets_address_each_element_once_witness :
    ∃ strides : List Int, strides.length = ([2, 3, 4] : List Int).length ∧
      (∀ i, (calculate_strides (some 0) 3 4 (caller_heap [2, 3, 4] [])).heap.read_int
        (some 1) i = strides.get? i) ∧
      (∀ idx, in_bounds idx [2, 3, 4] →
        ((4 : Nat) : Int) ∣ byte_offset idx strides ∧ 0 ≤ byte_offset idx strides ∧
        byte_offset idx strides ≤
          ([2, 3, 4] : List Int).prod * ((4 : Nat) : Int) - ((4 : Nat) : Int)) ∧
      (∀ idx idx', in_bounds idx [2, 3, 4] → in_bounds idx' [2, 3, 4] → idx ≠ idx' →
        byte_offset idx strides ≠ byte_offset idx' strides) ∧
      (∀ k : Int, 0 ≤ k → k < ([2, 3, 4] : List Int).prod →
        ∃ idx, in_bounds idx [2, 3, 4] ∧ byte_offset idx strides = k * ((4 : Nat) : Int)) :=
  C17_offsets_address_each_element_once (some 0) [2, 3, 4] 4 (caller_heap [2, 3, 4] [])
    (calculate_strides (some 0) 3 4 (caller_heap [2, 3, 4] [])).heap 1
    (by decide) (by decide) (by decide) (by decide) (by decide) (by decide) (by decide)

/-! ## C18: the order of the strides -/

/-- C18: for a shape with `ndim >= 1` and all extents `>= 1`, a positive
element width `w` and no overflow in `calculate_strides` (its largest value,
`stride[0] = shape[1] * ... * shape[ndim-1] * w`, fits the `int` of the stride
array; the first extent is not bounded), every stride that `calculate_strides`
wrote is a positive multiple of `w`, and for neighbouring axes
`stride[i+1] <= stride[i]`, `stride[i+1]` divides `stride[i]`, and
`stride[i] > stride[i+1]` exactly when `shape[i+1] >= 2`. -/
theorem C18_strides_ordered (shape : ptr) (vals : List Int) (w : Nat) (h h' : Heap) (st : Nat)
    (hv : holds_ints h shape vals = true) (h1 : 1 ≤ vals.length) (hlt : vals.length < 2 ^ 31)
    (hpos : ∀ v ∈ vals, 1 ≤ v) (hfit : (vals.drop 1).prod * (w : Int) < 2 ^ 31) (hw : 0 < w)
    (hr : calculate_strides shape (vals.length : Int) w h = Outcome.ret (some st) h') :
    (∀ i, i < vals.length →
      ∃ t, h'.read_int (some st) i = some t ∧ 0 < t ∧ (w : Int) ∣ t) ∧
    (∀ i, i + 1 < vals.length →
      ∃ s t u, h'.read_int shape (i + 1) = some s ∧ h'.read_int (some st) (i + 1) = some t ∧
        h'.read_int (some st) i = some u ∧ t ≤ u ∧ t ∣ u ∧ (t < u ↔ 2 ≤ s)) := by
  obtain ⟨hrd, hsh⟩ := calculate_strides_reads shape vals w h h' st hv h1 hlt hr
  rw [strides_of_no_overflow vals w h1 hpos hfit] at hrd
  have hw0 : (0 : Int) < w := by exact_mod_cast hw
  have hdrop : ∀ k, 1 ≤ (vals.drop k).prod :=
    fun k => prod_pos_of _ (fun v hv => hpos v (List.mem_of_mem_drop hv))
  constructor
  · intro i hi
    refine ⟨_, by rw [hrd, strides_exact_get (w : Int) vals i hi], ?_, Dvd.intro_left _ rfl⟩
    have := hdrop (i + 1)
    positivity
  · intro i hi
    obtain ⟨s, hs⟩ : ∃ s, vals.get? (i + 1) = some s := by
      rw [List.get?_eq_getElem?, List.getElem?_eq_getElem hi]; exact ⟨_, rfl⟩
    have hs1 : 1 ≤ s := hpos s (List.get?_mem hs)
    have hd : vals.drop (i + 1) = s :: vals.drop (i + 1 + 1) := by
      rw [List.get?_eq_getElem?, List.getElem?_eq_getElem hi] at hs
      simp only [Option.some.injEq] at hs
      rw [List.drop_eq_getElem_cons hi, hs]
    have hp := hdrop (i + 1 + 1)
    refine ⟨s, (vals.drop (i + 1 + 1)).prod * (w : Int), (vals.drop (i + 1)).prod * (w : Int),
      hsh _ _ hs, by rw [hrd, strides_exact_get (w : Int) vals (i + 1) hi],
      by rw [hrd, strides_exact_get (w : Int) vals i (by omega)], ?_, ?_, ?_⟩
    · rw [hd, List.prod_cons, mul_assoc]
      have hq : 0 < (vals.drop (i + 1 + 1)).prod * (w : Int) := by positivity
      nlinarith
    · rw [hd, List.prod_cons]
      exact ⟨s, by ring⟩
    · rw [hd, List.prod_cons, mul_assoc]
      have hq : 0 < (vals.drop (i + 1 + 1)).prod * (w : Int) := by positivity
      constructor
      · intro hlt2
        by_contra hc
        have : s = 1 := by omega
        rw [this, one_mul] at hlt2
        omega
      · intro h2
        nlinarith

/-- C18 (witness): the shape [8, 134217728] with 4-byte elements, 4 GiB in
total, whose strides [536870912, 4] are computed without overflow. -/
theorem C18_strides_ordered_witness :
    (∀ i, i < ([8, 134217728] : List Int).length →
      ∃ t, (calculate_strides (some 0) 2 4 (caller_heap [8, 134217728] [])).heap.read_int
        (some 1) i = some t ∧ 0 < t ∧ ((4 : Nat) : Int) ∣ t) ∧
    (∀ i, i + 1 < ([8, 134217728] : List Int).length →
      ∃ s t u,
        (calculate_strides (some 0) 2 4 (caller_heap [8, 134217728] [])).heap.read_int
          (some 0) (i + 1) = some s ∧
        (calculate_strides (some 0) 2 4 (caller_heap [8, 134217728] [])).heap.read_int
          (some 1) (i + 1) = some t ∧
        (calculate_strides (some 0) 2 4 (caller_heap [8, 134217728] [])).heap.read_int
          (some 1) i = some u ∧ t ≤ u ∧ t ∣ u ∧ (t < u ↔ 2 ≤ s)) :=
  C18_strides_ordered (some 0) [8, 134217728] 4 (caller_heap [8, 134217728] [])
    (calculate_strides (some 0) 2 4 (caller_heap [8, 134217728] [])).heap 1
    (by decide) (by decide) (by decide) (by decide) (by decide) (by decide) (by decide)

/-! ## C19: the indices used by the two loops -/

theorem calculate_strides_loop_traced_out (shape : ptr) (sa : Nat) :
    ∀ (k : Nat) (h : Heap),
      (calculate_strides_loop_traced shape sa k h).out = calculate_strides_loop shape sa k h
  | 0, _ => rfl
  | k + 1, h => by
    unfold calculate_strides_loop_traced calculate_strides_loop
    split
    · split
      · exact calculate_strides_loop_traced_out shape sa k _
      · rfl
    · rfl

theorem calculate_strides_traced_out (shape : ptr) (ndim : Int) (w : Nat) (h : Heap) :
    (calculate_strides_traced shape ndim w h).out = calculate_strides shape ndim w h := by
  unfold calculate_strides_traced calculate_strides
  split
  · rfl
  · split
    · rfl
    · split
      · rfl
      · simp only [calculate_strides_loop_traced_out]

theorem size_loop_traced_out (arr : Nat) (shape : ptr) :
    ∀ (n i : Nat) (h : Heap),
      (size_loop_traced arr shape i n h).out = size_loop arr shape i n h
  | 0, _, _ => rfl
  | n + 1, i, h => by
    unfold size_loop_traced size_loop
    split
    · split
      · exact size_loop_traced_out arr shape n _ _
      · rfl
    · rfl

theorem calculate_strides_loop_traced_bounds (shape : ptr) (sa : Nat) :
    ∀ (k : Nat) (h : Heap),
      (∀ a ∈ (calculate_strides_loop_traced shape sa k h).accesses,
        0 ≤ a.index ∧ a.index ≤ (k : Int)) ∧
      (calculate_strides_loop_traced shape sa k h).iterations ≤ k
  | 0, _ => by simp [calculate_strides_loop_traced]
  | k + 1, h => by
    have three : ∀ a ∈ [Access.read_shape ((k : Int) + 1), Access.read_stride ((k : Int) + 1),
        Access.write_stride (k : Int)], 0 ≤ a.index ∧ a.index ≤ ((k + 1 : Nat) : Int) := by
      intro a ha
      simp only [List.mem_cons, List.mem_singleton, List.not_mem_nil, or_false] at ha
      rcases ha with rfl | rfl | rfl <;> simp only [Access.index] <;> constructor <;>
        push_cast <;> omega
    unfold calculate_strides_loop_traced
    split
    · split
      · rename_i h1 _
        obtain ⟨ih1, ih2⟩ := calculate_strides_loop_traced_bounds shape sa k h1
        constructor
        · intro a ha
          rw [List.mem_append] at ha
          rcases ha with ha | ha
          · exact three a ha
          · have := ih1 a ha
            constructor
            · exact this.1
            · push_cast; omega
        · simp only; omega
      · exact ⟨three, by simp⟩
    · exact ⟨three, by simp⟩

theorem size_loop_traced_bounds (arr : Nat) (shape : ptr) :
    ∀ (n i : Nat) (h : Heap),
      (∀ a ∈ (size_loop_traced arr shape i n h).accesses,
        (i : Int) ≤ a.index ∧ a.index < (i : Int) + (n : Int)) ∧
      (size_loop_traced arr shape i n h).iterations ≤ n
  | 0, _, _ => by simp [size_loop_traced]
  | n + 1, i, h => by
    unfold size_loop_traced
    split
    · split
      · rename_i s _ _ _ sz _
        obtain ⟨ih1, ih2⟩ := size_loop_traced_bounds arr shape n (i + 1)
          (h.store arr (Block.struct { s with size := some (wrap_size (sz * to_size_t _)) }))
        constructor
        · intro a ha
          simp only [List.mem_cons] at ha
          rcases ha with rfl | ha
          · simp only [Access.index]; push_cast; omega
          · have := ih1 a ha
            push_cast at this ⊢
            omega
        · simp only; omega
      · constructor
        · intro a ha
          simp only [List.mem_singleton] at ha
          subst ha
          simp only [Access.index]; push_cast; omega
        · simp
    · constructor
      · intro a ha
        simp only [List.mem_singleton] at ha
        subst ha
        simp only [Access.index]; push_cast; omega
      · simp

/-- C19: for `ndim >= 1`, every array access of `calculate_strides` (the write
`stride_arr[ndim-1]`, and in the loop the reads `shape[i+1]`, `stride_arr[i+1]`
and the write `stride_arr[i]`) and every read `shape[i]` of the size loop of
`create_ndarray` uses an index in `[0, ndim)`; each loop runs at most `ndim`
iterations; the stride array that `calculate_strides` returns for a shape of
length `ndim` has exactly `ndim` cells. With `ndim = 0` and the allocation
granted, the only access of `calculate_strides` is the write
`stride_arr[-1]`, into a stride array of zero cells. -/
theorem C19_accesses_in_bounds (shape : ptr) (ndim : Int) (w : Nat) (arr : Nat) (h : Heap)
    (h1 : 1 ≤ ndim) :
    ((calculate_strides_traced shape ndim w h).out = calculate_strides shape ndim w h ∧
      (∀ a ∈ (calculate_strides_traced shape ndim w h).accesses,
        0 ≤ a.index ∧ a.index < ndim) ∧
      (calculate_strides_traced shape ndim w h).iterations ≤ ndim.toNat) ∧
    ((size_loop_traced arr shape 0 ndim.toNat h).out = size_loop arr shape 0 ndim.toNat h ∧
      (∀ a ∈ (size_loop_traced arr shape 0 ndim.toNat h).accesses,
        0 ≤ a.index ∧ a.index < ndim) ∧
      (size_loop_traced arr shape 0 ndim.toNat h).iterations ≤ ndim.toNat) ∧
    (∀ (vals : List Int) (st : Nat) (h' : Heap), ndim = (vals.length : Int) →
      holds_ints h shape vals = true → vals.length < 2 ^ 31 →
      calculate_strides shape ndim w h = Outcome.ret (some st) h' →
      ∃ cells, h'.load st = some (Block.ints cells) ∧ (cells.length : Int) = ndim) ∧
    (∀ h0 : Heap, h0.plan.headD true = true →
      (calculate_strides_traced shape 0 w h0).accesses = [Access.write_stride (-1)] ∧
      (calculate_strides_traced shape 0 w h0).out = calculate_strides shape 0 w h0 ∧
      (calculate_strides shape 0 w h0).value = none ∧
      (calculate_strides shape 0 w h0).heap.load h0.blocks.length = some (Block.ints [])) := by
  refine ⟨⟨calculate_strides_traced_out shape ndim w h, ?_, ?_⟩,
    ⟨size_loop_traced_out arr shape ndim.toNat 0 h, ?_, ?_⟩, ?_, ?_⟩
  · intro a ha
    unfold calculate_strides_traced at ha
    split at ha
    · simp at ha
    · split at ha
      · omega
      · split at ha
        · simp only [List.mem_singleton] at ha
          subst ha
          simp only [Access.index]; omega
        · simp only [List.mem_cons] at ha
          rcases ha with rfl | ha
          · simp only [Access.index]; omega
          · have := (calculate_strides_loop_traced_bounds shape _ (ndim - 1).toNat _).1 a ha
            omega
  · unfold calculate_strides_traced
    split
    · simp
    · split
      · simp
      · split
        · simp
        · rename_i sa _ _ _ _ h2 _
          have := (calculate_strides_loop_traced_bounds shape sa (ndim - 1).toNat h2).2
          simp only
          omega
  · intro a ha
    have := (size_loop_traced_bounds arr shape ndim.toNat 0 h).1 a ha
    omega
  · exact (size_loop_traced_bounds arr shape ndim.toNat 0 h).2
  · intro vals st h' hn hv hlt hr
    subst hn
    rcases calculate_strides_total shape vals w h hv (by omega) hlt with ⟨-, e⟩ | ⟨-, e⟩
    · rw [e] at hr
      simp only [Outcome.ret.injEq, Option.some.injEq] at hr
      obtain ⟨rfl, rfl⟩ := hr
      refine ⟨_, by rw [load_tail_zero]; rfl, ?_⟩
      rw [List.length_map, row_major_length, List.length_drop]
      omega
    · rw [e] at hr
      simp at hr
  · intro h0 hp
    refine ⟨?_, calculate_strides_traced_out shape 0 w h0, ?_, ?_⟩
    · simp only [calculate_strides_traced, malloc_ints, Heap.alloc, hp, Bool.and_self, if_true]
      rfl
    · rw [calculate_strides_zero shape w h0 hp]; rfl
    · rw [calculate_strides_zero shape w h0 hp]
      simp only [Outcome.heap, load_tail_zero]
      rfl

/-- C19 (witness): `ndim = 3` with the shape [2, 3, 4] and 4-byte elements. -/
theorem C19_accesses_in_bounds_witness :
    (calculate_strides_traced (some 0) 3 4 (caller_heap [2, 3, 4] [])).accesses =
        [Access.write_stride 2, Access.read_shape 2, Access.read_stride 2,
          Access.write_stride 1, Access.read_shape 1, Access.read_stride 1,
          Access.write_stride 0] ∧
      (∀ a ∈ (calculate_strides_traced (some 0) 3 4 (caller_heap [2, 3, 4] [])).accesses,
        0 ≤ a.index ∧ a.index < 3) ∧
      (calculate_strides_traced (some 0) 3 4 (caller_heap [2, 3, 4] [])).iterations
        ≤ (3 : Int).toNat :=
  ⟨by decide,
    (C19_accesses_in_bounds (some 0) 3 4 1 (caller_heap [2, 3, 4] []) (by decide)).1.2.1,
    (C19_accesses_in_bounds (some 0) 3 4 1 (caller_heap [2, 3, 4] []) (by decide)).1.2.2⟩

end Numc
